import Mathlib

/-!
Shallow embedding of the mteam-dashboard-action-processor streaming
row-classification engine (the variant wired together by
`src/row_processing.rs`, `src/state_management.rs`,
`src/plot_point_processors.rs` and `src/util.rs`; the predicate module
`src/detection/mod.rs` defines the same classification predicates
verbatim).  Rust `u32` values are modelled as `Nat` with an explicit
`% 2^32` where overflow can occur; Rust `String` is modelled as Lean
`String` (character classes such as whitespace / digits / uppercase are
modelled at ASCII precision, which is exact for the byte-level data this
engine consumes).  `Vec` used as a stack is modelled as a `List` whose
head is the top of the stack; `VecDeque` is modelled as a `List` whose
head is the front.  Fallible operations return `Option` / `Except`.
-/

namespace MTeam

deriving instance DecidableEq for Except

/-- Character class for the word-boundary `\b` of the shock-value regex:
ASCII alphanumerics and underscore. -/
def isWordChar (c : Char) : Bool := c.isAlphanum || c = '_'

/-- Rust `str::trim`: drop leading and trailing whitespace.  (Defined
structurally over the character list so that it evaluates inside the
kernel.) -/
def trimStr (s : String) : String :=
  String.mk (((s.data.dropWhile Char.isWhitespace).reverse.dropWhile
    Char.isWhitespace).reverse)

/-- Rust `str::to_lowercase` (ASCII). -/
def toLowerStr (s : String) : String :=
  String.mk (s.data.map Char.toLower)

/-- Split a character list at every separator character (the pieces
between separators, empties included), as Rust `str::split` does. -/
def splitChAux (p : Char → Bool) : List Char → List Char → List (List Char)
  | [], acc => [acc.reverse]
  | c :: rest, acc =>
    if p c then acc.reverse :: splitChAux p rest []
    else splitChAux p rest (c :: acc)

/-- Rust `str::split` with a character-class separator. -/
def splitChars (p : Char → Bool) (cs : List Char) : List (List Char) :=
  splitChAux p cs []

/-- Join strings with a separator (Rust `[&str]::join`). -/
def joinStrs (sep : String) : List String → String
  | [] => ""
  | [x] => x
  | x :: rest => x ++ sep ++ joinStrs sep rest

/-- One left-to-right non-overlapping replacement pass (Rust
`str::replace`).  The fuel argument only serves structural recursion; it
is instantiated with the text length, which the scan never exhausts. -/
def replaceFuel (pat rep : List Char) : Nat → List Char → List Char
  | _, [] => []
  | 0, cs => cs
  | fuel + 1, c :: rest =>
    if pat ≠ [] ∧ pat.isPrefixOf (c :: rest) then
      rep ++ replaceFuel pat rep fuel ((c :: rest).drop pat.length)
    else c :: replaceFuel pat rep fuel rest

/-- Rust `str::replace`. -/
def replaceStr (s pat rep : String) : String :=
  String.mk (replaceFuel pat.data rep.data s.data.length s.data)

/-- Rust `str::split_whitespace`: the non-empty maximal runs of
non-whitespace characters. -/
def split_whitespace (s : String) : List String :=
  ((splitChars Char.isWhitespace s.data).filter (fun w => w ≠ [])).map String.mk

/-- Embeds `normalize_whitespace` of `src/util.rs`: trim, split on
whitespace, re-join with single spaces. -/
def normalize_whitespace (s : String) : String :=
  joinStrs " " (split_whitespace (trimStr s))

/-- Numeric value of a digit string (most significant first). -/
def digitsVal (cs : List Char) : Nat :=
  cs.foldl (fun a c => a * 10 + (c.toNat - 48)) 0

/-- Rust `str::parse::<u32>()` as used by `parse_time` and
`extract_stage_name`: an optional leading `+`, then one or more ASCII
digits, value at most `2^32 - 1`; anything else fails. -/
def parse_u32 (s : String) : Option Nat :=
  let cs := s.toList
  let cs := match cs with
    | '+' :: rest => rest
    | _ => cs
  if cs = [] then none
  else if cs.all Char.isDigit then
    let v := digitsVal cs
    if v ≤ 4294967295 then some v else none
  else none

/-- Rust `format!("\x7b:02\x7d", n)`: decimal digits of `n`, left-padded
with zeros to width two. -/
def pad2 (n : Nat) : String :=
  if n < 10 then "0" ++ toString n else toString n

/-- Embeds the `CsvRowTime` struct of the scatter-point module. -/
structure CsvRowTime where
  total_seconds : Nat
  date_string : String
  timestamp : String
deriving DecidableEq, Repr

/-- Rust `CsvRowTime::default()`. -/
def CsvRowTime.default : CsvRowTime :=
  { total_seconds := 0, date_string := "", timestamp := "" }

/-- Embeds `parse_time` of `src/util.rs`.  The current UTC date queried by
the Rust code through `Utc::now()` is passed in as explicit `year`,
`month`, `day` arguments.  The `u32` sum `hours*3600 + minutes*60 +
seconds` is modelled with release-mode wrapping arithmetic (`% 2^32`). -/
def parse_time (year month day : Nat) (input : String) : Option CsvRowTime :=
  match (splitChars (fun c => c = ':') input.data).map String.mk with
  | [p0, p1, p2] =>
    match parse_u32 p0, parse_u32 p1, parse_u32 p2 with
    | some hours, some minutes, some seconds =>
      if minutes ≥ 60 ∨ seconds ≥ 60 then none
      else
        some { total_seconds := (hours * 3600 + minutes * 60 + seconds) % 4294967296,
               date_string := toString year ++ "-" ++ pad2 month ++ "-" ++ pad2 day ++ " " ++
                 pad2 hours ++ ":" ++ pad2 minutes ++ ":" ++ pad2 seconds,
               timestamp := pad2 hours ++ ":" ++ pad2 minutes ++ ":" ++ pad2 seconds }
    | _, _, _ => none
  | _ => none

/-- Drop leading whitespace (the deterministic `\s*` steps of the
stage-name regex: each is followed by a non-whitespace literal). -/
def dropWs (cs : List Char) : List Char := cs.dropWhile Char.isWhitespace

/-- Matches the suffix pattern `\s*\(action\)\s*$` of
`ACTION_NAME_REGEX` at the given position. -/
def actionTailOk (cs : List Char) : Bool :=
  let r := dropWs cs
  ("(action)".toList.isPrefixOf r) && ((r.drop 8).all Char.isWhitespace)

/-- Lazy group `(.+?)` of `ACTION_NAME_REGEX`: tries middles of
increasing length (shortest first, per leftmost-first capture semantics)
such that the remainder matches `\s*\(action\)\s*$`; the dot does not
match a newline. -/
def findMid : List Char → List Char → Option (List Char)
  | _, [] => none
  | pre, c :: rest =>
    if c = '\n' then none
    else if actionTailOk rest then some (pre ++ [c])
    else findMid (pre ++ [c]) rest

/-- Backtracking over the greedy `\s*` that precedes `(.+?)` in
`ACTION_NAME_REGEX`: the longest whitespace prefix is tried first. -/
def stageTailGo (cs : List Char) : Nat → Option (List Char)
  | 0 => findMid [] cs
  | j + 1 =>
    match findMid [] (cs.drop (j + 1)) with
    | some m => some m
    | none => stageTailGo cs j

/-- Embeds `extract_stage_name` of `src/util.rs`: match the vital-name
field against `^\s*\((\d+)\)\s*(.+?)\s*\(action\)\s*$`, parse the digits
as `u32` and whitespace-normalize the captured middle. -/
def extract_stage_name (s : String) : Option (Nat × String) :=
  match dropWs s.toList with
  | '(' :: cs2 =>
    let ds := cs2.takeWhile Char.isDigit
    if ds = [] then none
    else
      match cs2.dropWhile Char.isDigit with
      | ')' :: cs3 =>
        match stageTailGo cs3 ((cs3.takeWhile Char.isWhitespace).length) with
        | some mid =>
          if digitsVal ds ≤ 4294967295 then
            some (digitsVal ds, normalize_whitespace (String.mk mid))
          else none
        | none => none
      | _ => none
  | _ => none

/-- Word capitalization step of `capitalize_words` in `src/util.rs`,
acting on one whitespace-free word.  The Rust closure keeps a word that
is entirely digits/uppercase verbatim, recurses past a leading opening
parenthesis, and otherwise uppercases the first character and lowercases
the rest.  (The Rust recursion re-enters `capitalize_words`, which on a
whitespace-free string reduces to exactly this per-word step.) -/
def capWord : List Char → String
  | [] => ""
  | c :: cs =>
    if (c :: cs).all (fun x => x.isDigit || x.isUpper) then String.mk (c :: cs)
    else if c = '(' then "(" ++ capWord cs
    else String.mk (Char.toUpper c :: cs.map Char.toLower)

/-- Embeds `capitalize_words` of `src/util.rs`: title-case each word with
the exceptions above, join with single spaces, then apply the literal
replacement chain of the source. -/
def capitalize_words (s : String) : String :=
  replaceStr (replaceStr (replaceStr
    (joinStrs " " ((split_whitespace (trimStr s)).map (fun w => capWord w.data)))
    " ( " " (") ") " ") ") " )" ")"

/-- Scan for the leftmost match of `\b\d+[Jj]\b` (token start and length,
including the joule letter).  The `prev` argument is the character before
the current position, for the word-boundary test. -/
def findShockTok : Option Char → List Char → Nat → Option (Nat × Nat)
  | _, [], _ => none
  | prev, c :: rest, pos =>
    let boundary := match prev with
      | none => true
      | some pc => !isWordChar pc
    if boundary && c.isDigit then
      let ds := (c :: rest).takeWhile Char.isDigit
      match (c :: rest).dropWhile Char.isDigit with
      | j :: rest3 =>
        let boundaryAfter := match rest3 with
          | [] => true
          | d :: _ => !isWordChar d
        if (j == 'J' || j == 'j') && boundaryAfter then
          some (pos, ds.length + 1)
        else findShockTok (some c) rest (pos + 1)
      | [] => findShockTok (some c) rest (pos + 1)
    else findShockTok (some c) rest (pos + 1)

/-- Embeds `extract_shock_value` of `src/util.rs`, which applies
`(.*?)(\b\d+[Jj]\b)(.*)` and rebuilds the name from the trimmed
surrounding groups.  Because the dot does not cross newlines, the first
group starts at the beginning of the token's line and the third group
stops at the following newline. -/
def extract_shock_value (input : String) : String × String :=
  let cs := input.toList
  match findShockTok none cs 0 with
  | none => (input, "")
  | some (p, len) =>
    let g1 := ((cs.take p).reverse.takeWhile (fun c => c ≠ '\n')).reverse
    let g3 := (cs.drop (p + len)).takeWhile (fun c => c ≠ '\n')
    let before := trimStr (String.mk g1)
    let value := String.mk ((cs.drop p).take len)
    let after := trimStr (String.mk g3)
    let action_name := trimStr (before ++ " " ++ after)
    if value = "" then (action_name, "") else (action_name, value)

/-- Embeds `process_action_name` of `src/util.rs`: capitalize, strip
`UNAVAILABLE`, extract the shock value, then apply the fixed correction
and category tables.  Returns (corrected name, category, joule). -/
def process_action_name (input : String) : String × String × String :=
  let pair := extract_shock_value (trimStr (replaceStr (capitalize_words input) "UNAVAILABLE" ""))
  let normalized_action_name := pair.1
  let joule := pair.2
  let corrected_action_name :=
    if normalized_action_name = "Ascultate Lungs" then "Auscultate Lungs"
    else if normalized_action_name = "SYNCHRONIZED Shock" then "Synchronized Shock"
    else normalized_action_name
  let category :=
    if corrected_action_name = "Select Amiodarone" then "Medication"
    else if corrected_action_name = "Select Calcium" then "Medication"
    else if corrected_action_name = "Select Epinephrine" then "Medication"
    else if corrected_action_name = "Select Lidocaine" then "Medication"
    else corrected_action_name
  (corrected_action_name, category, joule)

/-- Embeds the `ActionCsvRow` struct of `src/action_csv_row.rs`: the nine
deserialized fields plus the derived fields filled in by
`post_deserialize`. -/
structure ActionCsvRow where
  timestamp : Option CsvRowTime
  action_vital_name : String
  subaction_time : String
  subaction_name : String
  score : String
  old_value : String
  new_value : String
  username : String
  speech_command : String
  parsed_stage : Option (Nat × String)
  action_name : String
  action_category : String
  shock_value : String
  action_point : Bool
  stage_boundary : Bool
  error_action_marker : Bool
  missed_action_marker : Bool
deriving DecidableEq, Repr

/-- Rust `ActionCsvRow::default()`. -/
def ActionCsvRow.default : ActionCsvRow :=
  { timestamp := none, action_vital_name := "", subaction_time := "",
    subaction_name := "", score := "", old_value := "", new_value := "",
    username := "", speech_command := "", parsed_stage := none,
    action_name := "", action_category := "", shock_value := "",
    action_point := false, stage_boundary := false,
    error_action_marker := false, missed_action_marker := false }

/-- Embeds `is_action_row` (identical in `src/util.rs` and
`src/detection/mod.rs`): parsed stage present, trimmed subaction-time
non-empty, raw subaction-name non-empty. -/
def is_action_row (csv_row : ActionCsvRow) : Bool :=
  csv_row.parsed_stage.isSome &&
  !(trimStr csv_row.subaction_time = "") &&
  !(csv_row.subaction_name = "")

/-- Embeds `is_stage_boundary` (identical in `src/util.rs` and
`src/detection/mod.rs`): parsed stage present, trimmed subaction-time
empty, raw subaction-name / score / old-value / new-value empty. -/
def is_stage_boundary (csv_row : ActionCsvRow) : Bool :=
  csv_row.parsed_stage.isSome &&
  (trimStr csv_row.subaction_time = "") &&
  (csv_row.subaction_name = "") &&
  (csv_row.score = "") &&
  (csv_row.old_value = "") &&
  (csv_row.new_value = "")

/-- Embeds `is_error_action_marker`. -/
def is_error_action_marker (csv_row : ActionCsvRow) : Bool :=
  trimStr csv_row.old_value = "Error-Triggered" &&
  trimStr csv_row.score = "Action-Was-Performed"

/-- Embeds `is_missed_action`. -/
def is_missed_action (csv_row : ActionCsvRow) : Bool :=
  trimStr csv_row.old_value = "Error-Triggered" &&
  trimStr csv_row.score = "Action-Was-Not-Performed"

/-- Embeds `post_deserialize` of `src/action_csv_row.rs` (the parsed
stage is assigned first and is visible to the subsequent predicate
calls, exactly as in the Rust mutation order). -/
def post_deserialize (r : ActionCsvRow) : ActionCsvRow :=
  let r1 := { r with parsed_stage := extract_stage_name r.action_vital_name }
  let processed := process_action_name r1.subaction_name
  { r1 with
    action_point := is_action_row r1,
    stage_boundary := is_stage_boundary r1,
    error_action_marker := is_error_action_marker r1,
    missed_action_marker := is_missed_action r1,
    action_name := processed.1,
    action_category := processed.2.1,
    shock_value := processed.2.2 }

/-- Embeds `ERROR_MARKER_TIME_THRESHOLD` of `src/util.rs`. -/
def ERROR_MARKER_TIME_THRESHOLD : Nat := 2

/-- Embeds `can_mark_each_other` (identical in `src/util.rs` and
`src/detection/mod.rs`): `u32::abs_diff` of the two total-seconds values
(defaulted to 0 when the timestamp is absent) is at most the
threshold. -/
def can_mark_each_other (csv_row1 csv_row2 : ActionCsvRow) : Bool :=
  let marker_time := (csv_row1.timestamp.getD CsvRowTime.default).total_seconds
  let current_time := (csv_row2.timestamp.getD CsvRowTime.default).total_seconds
  (max marker_time current_time - min marker_time current_time) ≤ ERROR_MARKER_TIME_THRESHOLD

/-- Embeds `is_erroneous_action` (identical in `src/util.rs` and
`src/detection/mod.rs`). -/
def is_erroneous_action (csv_row error_marker_row : ActionCsvRow) : Bool :=
  csv_row.action_point &&
  (error_marker_row.username = csv_row.action_vital_name) &&
  can_mark_each_other csv_row error_marker_row

/-- Embeds `PlotLocation`. -/
structure PlotLocation where
  timestamp : CsvRowTime
  stage : Nat × String
deriving DecidableEq, Repr

/-- Rust `PlotLocation::default()`. -/
def PlotLocation.default : PlotLocation :=
  { timestamp := CsvRowTime.default, stage := (0, "") }

/-- Embeds `PlotLocation::new`. -/
def PlotLocation.new (row : ActionCsvRow) : PlotLocation :=
  { timestamp := row.timestamp.getD CsvRowTime.default,
    stage := row.parsed_stage.getD PlotLocation.default.stage }

/-- Embeds `ErrorInfo`. -/
structure ErrorInfo where
  action_rule : String
  violation : String
  advice : String
deriving DecidableEq, Repr

/-- Embeds `ErrorInfo::new` (built from the error-marker row). -/
def ErrorInfo.new (row : ActionCsvRow) : ErrorInfo :=
  { action_rule := row.subaction_name, violation := row.score,
    advice := row.speech_command }

/-- Embeds `Action`. -/
structure Action where
  location : PlotLocation
  name : String
  action_category : String
  shock_value : String
deriving DecidableEq, Repr

/-- Embeds `Action::new`. -/
def Action.new (row : ActionCsvRow) : Action :=
  { location := PlotLocation.new row, name := row.action_name,
    action_category := row.action_category, shock_value := row.shock_value }

/-- Embeds `ErroneousAction`. -/
structure ErroneousAction where
  location : PlotLocation
  name : String
  action_category : String
  shock_value : String
  error_info : ErrorInfo
deriving DecidableEq, Repr

/-- Embeds `ErroneousAction::new` (action row plus the marker row's
error info). -/
def ErroneousAction.new (action_row error_marker_row : ActionCsvRow) : ErroneousAction :=
  { location := PlotLocation.new action_row, name := action_row.action_name,
    action_category := action_row.action_category,
    shock_value := action_row.shock_value,
    error_info := ErrorInfo.new error_marker_row }

/-- Embeds `MissedAction`. -/
structure MissedAction where
  location : PlotLocation
  action_name : String
  error_info : ErrorInfo
deriving DecidableEq, Repr

/-- Embeds `MissedAction::new`. -/
def MissedAction.new (row : ActionCsvRow) : MissedAction :=
  { location := PlotLocation.new row, action_name := row.action_vital_name,
    error_info := ErrorInfo.new row }

/-- Embeds `PeriodType`. -/
inductive PeriodType where
  | Stage : PeriodType
  | CPR : PeriodType
deriving DecidableEq, Repr

/-- Embeds the `ActionPlotPoint` output union (the variant used by the
claim pipeline, whose `Period` carries optional endpoints). -/
inductive ActionPlotPoint where
  | Error : ErroneousAction → ActionPlotPoint
  | Action : Action → ActionPlotPoint
  | MissedAction : MissedAction → ActionPlotPoint
  | Period : PeriodType → Option PlotLocation → Option PlotLocation → ActionPlotPoint
deriving DecidableEq, Repr

/-- Embeds `check_cpr` of `src/util.rs`: a start marker yields a
start-only CPR period, an end marker an end-only one. -/
def check_cpr (csv_row : ActionCsvRow) : Option ActionPlotPoint :=
  let normalized_action_name := normalize_whitespace (toLowerStr csv_row.subaction_name)
  if ["begin cpr", "enter cpr"].contains normalized_action_name then
    some (.Period .CPR (some (PlotLocation.new csv_row)) none)
  else if ["stop cpr", "end cpr"].contains normalized_action_name then
    some (.Period .CPR none (some (PlotLocation.new csv_row)))
  else none

/-- Error message of `merge_plot_location_range`. -/
def mergeErrMsg : String :=
  "Should have a begin and end point in order. Start/end markers are not encountered as expected for a valid range/duration."

/-- Endpoint merge closure of `merge_plot_location_range`: overlap is an
error. -/
def merge_loc_pair : Option PlotLocation → Option PlotLocation → Except String (Option PlotLocation)
  | none, none => .ok none
  | some p, none => .ok (some p)
  | none, some p => .ok (some p)
  | some _, some _ => .error mergeErrMsg

/-- Embeds `merge_plot_location_range` of `src/util.rs`. -/
def merge_plot_location_range : Option ActionPlotPoint → Option ActionPlotPoint → Except String ActionPlotPoint
  | some (.Period period_type1 start1 end1), some (.Period period_type2 start2 end2) =>
    if period_type1 ≠ period_type2 then
      .error "The periods you are trying to merge are of different types"
    else
      match merge_loc_pair start1 start2 with
      | .error e => .error e
      | .ok s =>
        match merge_loc_pair end1 end2 with
        | .error e => .error e
        | .ok e => .ok (.Period period_type1 s e)
  | _, _ => .error mergeErrMsg

/-- Embeds `CsvProcessingState` of `src/state_management.rs`.  The
`stage_boundaries` stack is born holding `PlotLocation::default()`. -/
structure CsvProcessingState where
  max_rows_to_check : Nat
  recent_rows : List ActionCsvRow
  stage_boundaries : List PlotLocation
  cpr_points : List ActionPlotPoint
  pending_error_marker : Option (Nat × ActionCsvRow)
deriving DecidableEq, Repr

/-- Embeds `CsvProcessingState::new`. -/
def CsvProcessingState.new (max_rows_to_check : Nat) : CsvProcessingState :=
  { max_rows_to_check := max_rows_to_check, recent_rows := [],
    stage_boundaries := [PlotLocation.default], cpr_points := [],
    pending_error_marker := none }

/-- Embeds `process_if_stage_boundary` of `src/plot_point_processors.rs`
(re-exported to the pipeline as `process_stage_boundaries`); returns the
emitted point (if any) and the updated stage stack.  The Rust
`unwrap()` of the parsed stage is guarded by `is_stage_boundary`, which
guarantees `parsed_stage.isSome`; the unreachable `none` branch returns
the untouched state. -/
def process_if_stage_boundary (stage_boundary_points : List PlotLocation)
    (csv_row : ActionCsvRow) :
    Option (Except String ActionPlotPoint) × List PlotLocation :=
  if ¬ (is_stage_boundary csv_row = true) then (none, stage_boundary_points)
  else
    match csv_row.parsed_stage with
    | none => (none, stage_boundary_points)
    | some st =>
      let start_location :=
        match stage_boundary_points with
        | [] => PlotLocation.new csv_row
        | location :: _ => { location with stage := st }
      let rest :=
        match stage_boundary_points with
        | [] => []
        | _ :: r => r
      (some (.ok (.Period .Stage (some start_location) (some (PlotLocation.new csv_row)))),
        PlotLocation.new csv_row :: rest)

/-- Embeds `process_cpr_lines` of `src/plot_point_processors.rs`. -/
def process_cpr_lines (cpr_points : List ActionPlotPoint) (csv_row : ActionCsvRow) :
    Option (Except String ActionPlotPoint) × List ActionPlotPoint :=
  match check_cpr csv_row with
  | some cpr =>
    match cpr_points with
    | previous_cpr :: rest =>
      (some (merge_plot_location_range (some cpr) (some previous_cpr)), rest)
    | [] => (none, [cpr])
  | none => (none, cpr_points)

/-- Embeds `check_pending_erroneous_action_marker`: returns the resolved
error point (if the current row matches the pending marker) and the new
pending cell. -/
def check_pending_erroneous_action_marker
    (pending_error_marker : Option (Nat × ActionCsvRow)) (current_row : ActionCsvRow) :
    Option ActionPlotPoint × Option (Nat × ActionCsvRow) :=
  match pending_error_marker with
  | some (_, error_marker_row) =>
    if is_erroneous_action current_row error_marker_row then
      (some (.Error (ErroneousAction.new current_row error_marker_row)), none)
    else if ¬ (can_mark_each_other current_row error_marker_row = true) then
      (none, none)
    else (none, pending_error_marker)
  | none => (none, none)

/-- Embeds `seek_erroneous_action_in_visited_rows`: first match scanning
the lookback buffer from most recent to oldest. -/
def seek_erroneous_action_in_visited_rows
    (visited_rows_buffer : List ActionCsvRow) (error_marker_row : ActionCsvRow) :
    Option (Except String ActionPlotPoint) :=
  (visited_rows_buffer.reverse.find?
      (fun recent_row => is_erroneous_action recent_row error_marker_row)).map
    (fun recent_row => .ok (.Error (ErroneousAction.new recent_row error_marker_row)))

/-- Embeds `process_erroneous_action` of `src/plot_point_processors.rs`;
returns the emitted result (if any) and the new pending cell. -/
def process_erroneous_action (pending_error_marker : Option (Nat × ActionCsvRow))
    (recent_rows : List ActionCsvRow) (row_idx : Nat) (current_row : ActionCsvRow) :
    Option (Except String ActionPlotPoint) × Option (Nat × ActionCsvRow) :=
  match check_pending_erroneous_action_marker pending_error_marker current_row with
  | (some error_point, pe) => (some (.ok error_point), pe)
  | (none, pe) =>
    if is_error_action_marker current_row then
      match seek_erroneous_action_in_visited_rows recent_rows current_row with
      | some res => (some res, pe)
      | none => (none, some (row_idx, current_row))
    else if is_missed_action current_row then
      (some (.ok (.MissedAction (MissedAction.new current_row))), pe)
    else (none, pe)

/-- Embeds `process_action_point`. -/
def process_action_point (current_row : ActionCsvRow) :
    Option (Except String ActionPlotPoint) :=
  if current_row.action_point then some (.ok (.Action (Action.new current_row)))
  else none

/-- Embeds `update_recent_rows` of `src/row_processing.rs`: evict the
front when the buffer has reached the configured size, then push the
current row at the back. -/
def update_recent_rows (current_row : ActionCsvRow) (recent_rows : List ActionCsvRow)
    (max_rows : Nat) : List ActionCsvRow :=
  (if recent_rows.length ≥ max_rows then recent_rows.tail else recent_rows) ++ [current_row]

/-- Embeds `process_csv_row` of `src/row_processing.rs`.  The input is
the collaborator's per-record result: either the deserialized row (to
which `post_deserialize` is applied, as in `parse_csv_row`) or an error
string.  Returns the emitted result (if any) plus the updated state. -/
def process_csv_row (row_idx : Nat) (result : Except String ActionCsvRow)
    (state : CsvProcessingState) :
    Option (Except String ActionPlotPoint) × CsvProcessingState :=
  match result with
  | .error e => (some (.error ("Could not deserialize row: " ++ e)), state)
  | .ok raw =>
    let current_row := post_deserialize raw
    let state1 := { state with
      recent_rows := update_recent_rows current_row state.recent_rows state.max_rows_to_check }
    match process_if_stage_boundary state1.stage_boundaries current_row with
    | (some out, sb) => (some out, { state1 with stage_boundaries := sb })
    | (none, sb) =>
      let state2 := { state1 with stage_boundaries := sb }
      match process_cpr_lines state2.cpr_points current_row with
      | (some out, cp) => (some out, { state2 with cpr_points := cp })
      | (none, cp) =>
        let state3 := { state2 with cpr_points := cp }
        match process_erroneous_action state3.pending_error_marker state3.recent_rows
            row_idx current_row with
        | (some out, pe) => (some out, { state3 with pending_error_marker := pe })
        | (none, pe) =>
          let state4 := { state3 with pending_error_marker := pe }
          (process_action_point current_row, state4)

/-- Streaming driver: feed the records to `process_csv_row` in order
with their indices (as `process_csv` does via `enumerate`), collecting
every per-row result and the final state. -/
def processRows (row_idx : Nat) (state : CsvProcessingState) :
    List (Except String ActionCsvRow) →
    List (Option (Except String ActionPlotPoint)) × CsvProcessingState
  | [] => ([], state)
  | x :: xs =>
    let step := process_csv_row row_idx x state
    let rec_result := processRows (row_idx + 1) step.2 xs
    (step.1 :: rec_result.1, rec_result.2)

/-- State reached after processing the given records (starting at the
given row index). -/
def stateAfter (row_idx : Nat) (state : CsvProcessingState)
    (xs : List (Except String ActionCsvRow)) : CsvProcessingState :=
  (processRows row_idx state xs).2

/-!
Ghost instrumentation.  The tagged pipeline below is not part of the
source; it shadows the engine while recording, for every buffered row
and every emitted `Error` point, the index of the action row and of the
error-marker row that produced it.  `tprocess_csv_row_erase` proves that
erasing the tags gives back exactly `process_csv_row`, so properties of
tagged runs are properties of the engine.  Emission indices are
otherwise unobservable in the engine's output, which only carries field
values.
-/

/-- Tagged variant of `CsvProcessingState`: the lookback buffer keys
each retained row by the index it was read at. -/
structure TaggedState where
  max_rows_to_check : Nat
  recent_rows : List (Nat × ActionCsvRow)
  stage_boundaries : List PlotLocation
  cpr_points : List ActionPlotPoint
  pending_error_marker : Option (Nat × ActionCsvRow)
deriving DecidableEq, Repr

/-- Tagged variant of `CsvProcessingState.new`. -/
def TaggedState.new (max_rows_to_check : Nat) : TaggedState :=
  { max_rows_to_check := max_rows_to_check, recent_rows := [],
    stage_boundaries := [PlotLocation.default], cpr_points := [],
    pending_error_marker := none }

/-- Forget the buffer tags. -/
def TaggedState.erase (ts : TaggedState) : CsvProcessingState :=
  { max_rows_to_check := ts.max_rows_to_check,
    recent_rows := ts.recent_rows.map Prod.snd,
    stage_boundaries := ts.stage_boundaries,
    cpr_points := ts.cpr_points,
    pending_error_marker := ts.pending_error_marker }

/-- Tagged per-row output: the emitted point together with, for `Error`
points, the pair (action row index, marker row index) that produced
it. -/
abbrev TOut : Type := Option (Except String (ActionPlotPoint × Option (Nat × Nat)))

/-- Attach the empty tag to an untagged result. -/
def tagNone (o : Option (Except String ActionPlotPoint)) : TOut :=
  o.map (Except.map (fun p => (p, none)))

/-- Forget the tag of a per-row result. -/
def eraseOut (o : TOut) : Option (Except String ActionPlotPoint) :=
  o.map (Except.map Prod.fst)

/-- Tagged variant of `check_pending_erroneous_action_marker`: a
resolved pending marker is tagged with (current row index, marker row
index). -/
def tcheck_pending (pending_error_marker : Option (Nat × ActionCsvRow))
    (row_idx : Nat) (current_row : ActionCsvRow) :
    Option (ActionPlotPoint × (Nat × Nat)) × Option (Nat × ActionCsvRow) :=
  match pending_error_marker with
  | some (marker_index, error_marker_row) =>
    if is_erroneous_action current_row error_marker_row then
      (some ((.Error (ErroneousAction.new current_row error_marker_row)),
        (row_idx, marker_index)), none)
    else if ¬ (can_mark_each_other current_row error_marker_row = true) then
      (none, none)
    else (none, pending_error_marker)
  | none => (none, none)

/-- Tagged variant of `seek_erroneous_action_in_visited_rows`: a
backward match is tagged with (buffered row index, marker row index). -/
def tseek (visited_rows_buffer : List (Nat × ActionCsvRow))
    (error_marker_row : ActionCsvRow) (marker_idx : Nat) : TOut :=
  (visited_rows_buffer.reverse.find?
      (fun p => is_erroneous_action p.2 error_marker_row)).map
    (fun p => .ok ((.Error (ErroneousAction.new p.2 error_marker_row)),
      some (p.1, marker_idx)))

/-- Tagged variant of `process_erroneous_action`. -/
def tprocess_erroneous_action (pending_error_marker : Option (Nat × ActionCsvRow))
    (recent_rows : List (Nat × ActionCsvRow)) (row_idx : Nat)
    (current_row : ActionCsvRow) : TOut × Option (Nat × ActionCsvRow) :=
  match tcheck_pending pending_error_marker row_idx current_row with
  | (some tagged_point, pe) => (some (.ok (tagged_point.1, some tagged_point.2)), pe)
  | (none, pe) =>
    if is_error_action_marker current_row then
      match tseek recent_rows current_row row_idx with
      | some res => (some res, pe)
      | none => (none, some (row_idx, current_row))
    else if is_missed_action current_row then
      (tagNone (some (.ok (.MissedAction (MissedAction.new current_row)))), pe)
    else (none, pe)

/-- Tagged variant of `update_recent_rows`. -/
def tupdate_recent_rows (entry : Nat × ActionCsvRow)
    (recent_rows : List (Nat × ActionCsvRow)) (max_rows : Nat) :
    List (Nat × ActionCsvRow) :=
  (if recent_rows.length ≥ max_rows then recent_rows.tail else recent_rows) ++ [entry]

/-- Tagged variant of `process_csv_row`. -/
def tprocess_csv_row (row_idx : Nat) (result : Except String ActionCsvRow)
    (ts : TaggedState) : TOut × TaggedState :=
  match result with
  | .error e => (some (.error ("Could not deserialize row: " ++ e)), ts)
  | .ok raw =>
    let current_row := post_deserialize raw
    let ts1 := { ts with
      recent_rows := tupdate_recent_rows (row_idx, current_row) ts.recent_rows
        ts.max_rows_to_check }
    match process_if_stage_boundary ts1.stage_boundaries current_row with
    | (some out, sb) => (tagNone (some out), { ts1 with stage_boundaries := sb })
    | (none, sb) =>
      let ts2 := { ts1 with stage_boundaries := sb }
      match process_cpr_lines ts2.cpr_points current_row with
      | (some out, cp) => (tagNone (some out), { ts2 with cpr_points := cp })
      | (none, cp) =>
        let ts3 := { ts2 with cpr_points := cp }
        match tprocess_erroneous_action ts3.pending_error_marker ts3.recent_rows
            row_idx current_row with
        | (some out, pe) => (some out, { ts3 with pending_error_marker := pe })
        | (none, pe) =>
          let ts4 := { ts3 with pending_error_marker := pe }
          (tagNone (process_action_point current_row), ts4)

/-- Tagged streaming driver. -/
def tprocessRows (row_idx : Nat) (ts : TaggedState) :
    List (Except String ActionCsvRow) → List TOut × TaggedState
  | [] => ([], ts)
  | x :: xs =>
    let step := tprocess_csv_row row_idx x ts
    let rec_result := tprocessRows (row_idx + 1) step.2 xs
    (step.1 :: rec_result.1, rec_result.2)

/-- Tagged run of a whole input with a fresh state, as `process_csv`
does. -/
def trun (max_rows_to_check : Nat) (xs : List (Except String ActionCsvRow)) :
    List TOut × TaggedState :=
  tprocessRows 0 (TaggedState.new max_rows_to_check) xs

lemma tail_map {α β : Type} (f : α → β) (l : List α) :
    (l.map f).tail = l.tail.map f := by
  cases l <;> rfl

lemma eraseOut_tagNone (o : Option (Except String ActionPlotPoint)) :
    eraseOut (tagNone o) = o := by
  cases o with
  | none => rfl
  | some r => cases r <;> rfl

lemma tcheck_pending_erase (p : Option (Nat × ActionCsvRow)) (i : Nat)
    (r : ActionCsvRow) :
    ((tcheck_pending p i r).1).map Prod.fst =
      (check_pending_erroneous_action_marker p r).1 ∧
    (tcheck_pending p i r).2 = (check_pending_erroneous_action_marker p r).2 := by
  cases p with
  | none => exact ⟨rfl, rfl⟩
  | some jm =>
    obtain ⟨j, m⟩ := jm
    by_cases h1 : is_erroneous_action r m = true <;>
      by_cases h2 : can_mark_each_other r m = true <;>
      simp [tcheck_pending, check_pending_erroneous_action_marker, h1, h2]

lemma tseek_erase (buf : List (Nat × ActionCsvRow)) (m : ActionCsvRow) (i : Nat) :
    eraseOut (tseek buf m i) =
      seek_erroneous_action_in_visited_rows (buf.map Prod.snd) m := by
  simp only [eraseOut, tseek, seek_erroneous_action_in_visited_rows,
    ← List.map_reverse, List.find?_map, Option.map_map]
  rfl

lemma tprocess_erroneous_action_erase (p : Option (Nat × ActionCsvRow))
    (buf : List (Nat × ActionCsvRow)) (i : Nat) (r : ActionCsvRow) :
    eraseOut (tprocess_erroneous_action p buf i r).1 =
      (process_erroneous_action p (buf.map Prod.snd) i r).1 ∧
    (tprocess_erroneous_action p buf i r).2 =
      (process_erroneous_action p (buf.map Prod.snd) i r).2 := by
  obtain ⟨h1, h2⟩ := tcheck_pending_erase p i r
  simp only [tprocess_erroneous_action, process_erroneous_action]
  rcases ht : tcheck_pending p i r with ⟨o, pe⟩
  rcases hr : check_pending_erroneous_action_marker p r with ⟨o', pe'⟩
  rw [ht, hr] at h1 h2
  simp only at h1 h2
  subst h2
  cases o with
  | some t =>
    subst h1
    exact ⟨rfl, rfl⟩
  | none =>
    subst h1
    by_cases hm : is_error_action_marker r = true
    · simp only [hm, if_true]
      rw [← tseek_erase buf r i]
      rcases hs : tseek buf r i with _ | res
      · simp [eraseOut]
      · simp [eraseOut]
    · by_cases hmiss : is_missed_action r = true <;>
        simp [hm, hmiss, eraseOut, tagNone, Except.map]

lemma tupdate_erase (i : Nat) (r : ActionCsvRow) (l : List (Nat × ActionCsvRow))
    (maxr : Nat) :
    (tupdate_recent_rows (i, r) l maxr).map Prod.snd =
      update_recent_rows r (l.map Prod.snd) maxr := by
  simp only [tupdate_recent_rows, update_recent_rows, List.length_map, tail_map]
  by_cases h : l.length ≥ maxr
  · rw [if_pos h, if_pos h, List.map_append]
    rfl
  · rw [if_neg h, if_neg h, List.map_append]
    rfl

lemma tprocess_csv_row_erase (i : Nat) (x : Except String ActionCsvRow)
    (ts : TaggedState) :
    eraseOut (tprocess_csv_row i x ts).1 = (process_csv_row i x ts.erase).1 ∧
    ((tprocess_csv_row i x ts).2).erase = (process_csv_row i x ts.erase).2 := by
  cases x with
  | error e => exact ⟨rfl, rfl⟩
  | ok raw =>
    simp only [tprocess_csv_row, process_csv_row, TaggedState.erase]
    rcases hsb : process_if_stage_boundary ts.stage_boundaries (post_deserialize raw)
      with ⟨osb, sb⟩
    cases osb with
    | some out =>
      dsimp only
      exact ⟨eraseOut_tagNone _, by
        simp [TaggedState.erase, tupdate_erase]⟩
    | none =>
      dsimp only
      rcases hcp : process_cpr_lines ts.cpr_points (post_deserialize raw) with ⟨ocp, cp⟩
      cases ocp with
      | some out =>
        dsimp only
        exact ⟨eraseOut_tagNone _, by
          simp [TaggedState.erase, tupdate_erase]⟩
      | none =>
        dsimp only
        obtain ⟨he1, he2⟩ := tprocess_erroneous_action_erase ts.pending_error_marker
          (tupdate_recent_rows (i, post_deserialize raw) ts.recent_rows
            ts.max_rows_to_check) i (post_deserialize raw)
        rw [tupdate_erase] at he1 he2
        rcases hte : tprocess_erroneous_action ts.pending_error_marker
          (tupdate_recent_rows (i, post_deserialize raw) ts.recent_rows
            ts.max_rows_to_check) i (post_deserialize raw) with ⟨oe, pe⟩
        rcases hre : process_erroneous_action ts.pending_error_marker
          (update_recent_rows (post_deserialize raw)
            (ts.recent_rows.map Prod.snd) ts.max_rows_to_check) i
          (post_deserialize raw) with ⟨oe', pe'⟩
        rw [hte, hre] at he1 he2
        simp only at he1 he2
        subst he2
        cases oe with
        | some out =>
          cases oe' with
          | some out' =>
            dsimp only
            simp only [eraseOut] at he1 ⊢
            exact ⟨he1, by simp [TaggedState.erase, tupdate_erase]⟩
          | none => simp [eraseOut] at he1
        | none =>
          cases oe' with
          | some out' => simp [eraseOut] at he1
          | none =>
            dsimp only
            exact ⟨eraseOut_tagNone _, by
              simp [TaggedState.erase, tupdate_erase]⟩

lemma tprocessRows_erase :
    ∀ (xs : List (Except String ActionCsvRow)) (i : Nat) (ts : TaggedState),
    (tprocessRows i ts xs).1.map eraseOut = (processRows i ts.erase xs).1 ∧
    ((tprocessRows i ts xs).2).erase = (processRows i ts.erase xs).2 := by
  intro xs
  induction xs with
  | nil => intro i ts; exact ⟨rfl, rfl⟩
  | cons x xs ih =>
    intro i ts
    obtain ⟨h1, h2⟩ := tprocess_csv_row_erase i x ts
    obtain ⟨ih1, ih2⟩ := ih (i + 1) (tprocess_csv_row i x ts).2
    rw [h2] at ih1 ih2
    simp only [tprocessRows, processRows, List.map_cons]
    exact ⟨by rw [h1, ih1], ih2⟩

lemma terr_pending (p : Option (Nat × ActionCsvRow)) (buf : List (Nat × ActionCsvRow))
    (i : Nat) (r : ActionCsvRow) (j : Nat) (m : ActionCsvRow)
    (h : (tprocess_erroneous_action p buf i r).2 = some (j, m)) :
    p = some (j, m) ∨ (j = i ∧ m = r ∧ is_error_action_marker r = true) := by
  unfold tprocess_erroneous_action tcheck_pending at h
  cases p with
  | none =>
    simp only at h
    split at h
    case isTrue hm =>
      split at h
      · simp at h
      · simp only [Option.some.injEq, Prod.mk.injEq] at h
        exact Or.inr ⟨h.1.symm, h.2.symm, hm⟩
    case isFalse hm =>
      split at h <;> simp at h
  | some jm =>
    obtain ⟨j0, m0⟩ := jm
    simp only at h
    by_cases he : is_erroneous_action r m0 = true
    · simp [he] at h
    · by_cases hc : can_mark_each_other r m0 = true
      · rw [if_neg he, if_neg (not_not_intro hc)] at h
        simp only at h
        by_cases hm : is_error_action_marker r = true
        · rcases hs : tseek buf r i with _ | res
          · simp only [hm, hs, if_true] at h
            simp only [Option.some.injEq, Prod.mk.injEq] at h
            exact Or.inr ⟨h.1.symm, h.2.symm, hm⟩
          · simp only [hm, hs, if_true] at h
            simp only [Option.some.injEq, Prod.mk.injEq] at h
            exact Or.inl (by rw [h.1, h.2])
        · by_cases hmiss : is_missed_action r = true <;>
            · simp only [hm, hmiss, if_true, if_false, Bool.false_eq_true] at h
              simp only [Option.some.injEq, Prod.mk.injEq] at h
              exact Or.inl (by rw [h.1, h.2])
      · rw [if_neg he, if_pos hc] at h
        simp only at h
        by_cases hm : is_error_action_marker r = true
        · rcases hs : tseek buf r i with _ | res
          · simp only [hm, hs, if_true] at h
            simp only [Option.some.injEq, Prod.mk.injEq] at h
            exact Or.inr ⟨h.1.symm, h.2.symm, hm⟩
          · simp [hm, hs] at h
        · by_cases hmiss : is_missed_action r = true <;>
            simp [hm, hmiss] at h

lemma mem_tupdate (q : Nat × ActionCsvRow) (e : Nat × ActionCsvRow)
    (l : List (Nat × ActionCsvRow)) (maxr : Nat)
    (h : q ∈ tupdate_recent_rows e l maxr) : q ∈ l ∨ q = e := by
  unfold tupdate_recent_rows at h
  rcases List.mem_append.mp h with h1 | h1
  · split at h1
    · exact Or.inl (List.mem_of_mem_tail h1)
    · exact Or.inl h1
  · exact Or.inr (List.mem_singleton.mp h1)

lemma tseek_some (buf : List (Nat × ActionCsvRow)) (r : ActionCsvRow) (i : Nat)
    (res : Except String (ActionPlotPoint × Option (Nat × Nat)))
    (h : tseek buf r i = some res) :
    ∃ pr ∈ buf, is_erroneous_action pr.2 r = true ∧
      res = .ok ((.Error (ErroneousAction.new pr.2 r)), some (pr.1, i)) := by
  unfold tseek at h
  rcases Option.map_eq_some'.mp h with ⟨pr, hfind, hres⟩
  have hpred := List.find?_some hfind
  exact ⟨pr, List.mem_reverse.mp (List.mem_of_find?_eq_some hfind), hpred, hres.symm⟩

lemma terr_tag (p : Option (Nat × ActionCsvRow)) (buf : List (Nat × ActionCsvRow))
    (i : Nat) (r : ActionCsvRow) (pt : ActionPlotPoint) (a mi : Nat)
    (h : (tprocess_erroneous_action p buf i r).1 = some (.ok (pt, some (a, mi)))) :
    ((∃ mr, p = some (mi, mr) ∧ pt = .Error (ErroneousAction.new r mr) ∧
        is_erroneous_action r mr = true) ∧ a = i) ∨
    (mi = i ∧ is_error_action_marker r = true ∧
      ∃ rb, (a, rb) ∈ buf ∧ pt = .Error (ErroneousAction.new rb r) ∧
        is_erroneous_action rb r = true) := by
  unfold tprocess_erroneous_action tcheck_pending at h
  cases p with
  | none =>
    simp only at h
    by_cases hm : is_error_action_marker r = true
    · rcases hs : tseek buf r i with _ | res
      · simp [hm, hs] at h
      · simp only [hm, hs, if_true] at h
        obtain ⟨pr, hmem, hpred, hres⟩ := tseek_some buf r i res hs
        rw [hres] at h
        simp only [Option.some.injEq, Except.ok.injEq, Prod.mk.injEq] at h
        refine Or.inr ⟨h.2.2.symm, hm, pr.2, ?_, h.1.symm, hpred⟩
        rw [← h.2.1]
        exact (Prod.mk.eta) ▸ hmem
    · by_cases hmiss : is_missed_action r = true
      · rw [if_neg hm, if_pos hmiss] at h
        dsimp only at h
        exact absurd h (by simp [tagNone, Except.map])
      · rw [if_neg hm, if_neg hmiss] at h
        dsimp only at h
        exact absurd h (by simp)
  | some jm =>
    obtain ⟨j0, m0⟩ := jm
    simp only at h
    by_cases he : is_erroneous_action r m0 = true
    · rw [if_pos he] at h
      dsimp only at h
      simp only [Option.some.injEq, Except.ok.injEq, Prod.mk.injEq] at h
      exact Or.inl ⟨⟨m0, by rw [h.2.2], h.1.symm, he⟩, h.2.1.symm⟩
    · have hrest : (if ¬can_mark_each_other r m0 = true then
          ((none, none) : Option (ActionPlotPoint × (Nat × Nat)) × Option (Nat × ActionCsvRow))
          else (none, some (j0, m0))).1 = none := by
        split <;> rfl
      rcases hsplit : (if ¬can_mark_each_other r m0 = true then
          ((none, none) : Option (ActionPlotPoint × (Nat × Nat)) × Option (Nat × ActionCsvRow))
          else (none, some (j0, m0))) with ⟨o1, pe⟩
      rw [if_neg he, hsplit] at h
      rw [hsplit] at hrest
      simp only at hrest
      rw [hrest] at h
      simp only at h
      by_cases hm : is_error_action_marker r = true
      · rcases hs : tseek buf r i with _ | res
        · simp [hm, hs] at h
        · simp only [hm, hs, if_true] at h
          obtain ⟨pr, hmem, hpred, hres⟩ := tseek_some buf r i res hs
          rw [hres] at h
          simp only [Option.some.injEq, Except.ok.injEq, Prod.mk.injEq] at h
          refine Or.inr ⟨h.2.2.symm, hm, pr.2, ?_, h.1.symm, hpred⟩
          rw [← h.2.1]
          exact (Prod.mk.eta) ▸ hmem
      · by_cases hmiss : is_missed_action r = true
        · rw [if_neg hm, if_pos hmiss] at h
          dsimp only at h
          exact absurd h (by simp [tagNone, Except.map])
        · rw [if_neg hm, if_neg hmiss] at h
          dsimp only at h
          exact absurd h (by simp)

lemma tstep_pending (i : Nat) (x : Except String ActionCsvRow) (ts : TaggedState)
    (j : Nat) (m : ActionCsvRow)
    (h : (tprocess_csv_row i x ts).2.pending_error_marker = some (j, m)) :
    ts.pending_error_marker = some (j, m) ∨
      (j = i ∧ ∃ raw, x = .ok raw ∧ m = post_deserialize raw ∧
        is_error_action_marker m = true) := by
  cases x with
  | error e => exact Or.inl h
  | ok raw =>
    simp only [tprocess_csv_row] at h
    rcases hsb : process_if_stage_boundary ts.stage_boundaries (post_deserialize raw)
      with ⟨osb, sb⟩
    rw [hsb] at h
    cases osb with
    | some out => exact Or.inl h
    | none =>
      dsimp only at h
      rcases hcp : process_cpr_lines ts.cpr_points (post_deserialize raw) with ⟨ocp, cp⟩
      rw [hcp] at h
      cases ocp with
      | some out => exact Or.inl h
      | none =>
        dsimp only at h
        rcases hte : tprocess_erroneous_action ts.pending_error_marker
          (tupdate_recent_rows (i, post_deserialize raw) ts.recent_rows
            ts.max_rows_to_check) i (post_deserialize raw) with ⟨oe, pe⟩
        rw [hte] at h
        have hpe : pe = some (j, m) := by
          cases oe with
          | some out => exact h
          | none => exact h
        have := terr_pending ts.pending_error_marker
          (tupdate_recent_rows (i, post_deserialize raw) ts.recent_rows
            ts.max_rows_to_check) i (post_deserialize raw) j m (by rw [hte]; exact hpe)
        rcases this with h1 | h1
        · exact Or.inl h1
        · exact Or.inr ⟨h1.1, raw, rfl, h1.2.1, h1.2.1 ▸ h1.2.2⟩

lemma tstep_recent (i : Nat) (x : Except String ActionCsvRow) (ts : TaggedState)
    (q : Nat × ActionCsvRow) (h : q ∈ (tprocess_csv_row i x ts).2.recent_rows) :
    q ∈ ts.recent_rows ∨ (q.1 = i ∧ ∃ raw, x = .ok raw ∧ q.2 = post_deserialize raw) := by
  cases x with
  | error e => exact Or.inl h
  | ok raw =>
    simp only [tprocess_csv_row] at h
    have hmem : q ∈ tupdate_recent_rows (i, post_deserialize raw) ts.recent_rows
        ts.max_rows_to_check → q ∈ ts.recent_rows ∨
        (q.1 = i ∧ ∃ raw0, (Except.ok raw : Except String ActionCsvRow) = Except.ok raw0 ∧
          q.2 = post_deserialize raw0) := by
      intro hq
      rcases mem_tupdate q _ _ _ hq with h1 | h1
      · exact Or.inl h1
      · exact Or.inr ⟨by rw [h1], raw, rfl, by rw [h1]⟩
    rcases hsb : process_if_stage_boundary ts.stage_boundaries (post_deserialize raw)
      with ⟨osb, sb⟩
    rw [hsb] at h
    cases osb with
    | some out => exact hmem h
    | none =>
      dsimp only at h
      rcases hcp : process_cpr_lines ts.cpr_points (post_deserialize raw) with ⟨ocp, cp⟩
      rw [hcp] at h
      cases ocp with
      | some out => exact hmem h
      | none =>
        dsimp only at h
        rcases hte : tprocess_erroneous_action ts.pending_error_marker
          (tupdate_recent_rows (i, post_deserialize raw) ts.recent_rows
            ts.max_rows_to_check) i (post_deserialize raw) with ⟨oe, pe⟩
        rw [hte] at h
        cases oe with
        | some out => exact hmem h
        | none => exact hmem h

lemma tstep_tag (i : Nat) (x : Except String ActionCsvRow) (ts : TaggedState)
    (pt : ActionPlotPoint) (a mi : Nat)
    (h : (tprocess_csv_row i x ts).1 = some (.ok (pt, some (a, mi)))) :
    ∃ raw, x = .ok raw ∧
      (((∃ mr, ts.pending_error_marker = some (mi, mr) ∧
          pt = .Error (ErroneousAction.new (post_deserialize raw) mr) ∧
          is_erroneous_action (post_deserialize raw) mr = true) ∧ a = i) ∨
       (mi = i ∧ is_error_action_marker (post_deserialize raw) = true ∧
         ∃ rb, ((a, rb) ∈ ts.recent_rows ∨ (a = i ∧ rb = post_deserialize raw)) ∧
           pt = .Error (ErroneousAction.new rb (post_deserialize raw)) ∧
           is_erroneous_action rb (post_deserialize raw) = true)) := by
  cases x with
  | error e => exact absurd h (by simp [tprocess_csv_row])
  | ok raw =>
    refine ⟨raw, rfl, ?_⟩
    simp only [tprocess_csv_row] at h
    rcases hsb : process_if_stage_boundary ts.stage_boundaries (post_deserialize raw)
      with ⟨osb, sb⟩
    rw [hsb] at h
    cases osb with
    | some out =>
      dsimp only at h
      rcases out with e | p <;> simp [tagNone, Except.map] at h
    | none =>
      dsimp only at h
      rcases hcp : process_cpr_lines ts.cpr_points (post_deserialize raw) with ⟨ocp, cp⟩
      rw [hcp] at h
      cases ocp with
      | some out =>
        dsimp only at h
        rcases out with e | p <;> simp [tagNone, Except.map] at h
      | none =>
        dsimp only at h
        rcases hte : tprocess_erroneous_action ts.pending_error_marker
          (tupdate_recent_rows (i, post_deserialize raw) ts.recent_rows
            ts.max_rows_to_check) i (post_deserialize raw) with ⟨oe, pe⟩
        rw [hte] at h
        cases oe with
        | some out =>
          dsimp only at h
          rw [h] at hte
          have := terr_tag ts.pending_error_marker
            (tupdate_recent_rows (i, post_deserialize raw) ts.recent_rows
              ts.max_rows_to_check) i (post_deserialize raw) pt a mi (by rw [hte])
          rcases this with h1 | h1
          · exact Or.inl h1
          · refine Or.inr ⟨h1.1, h1.2.1, ?_⟩
            obtain ⟨rb, hrb, hpt, herr⟩ := h1.2.2
            refine ⟨rb, ?_, hpt, herr⟩
            rcases mem_tupdate _ _ _ _ hrb with h2 | h2
            · exact Or.inl h2
            · right
              have ha : a = i := congrArg Prod.fst h2
              have hb : rb = post_deserialize raw := congrArg Prod.snd h2
              exact ⟨ha, hb⟩
        | none =>
          dsimp only at h
          unfold process_action_point at h
          split at h <;> simp [tagNone, Except.map] at h

lemma tprocessRows_length (xs : List (Except String ActionCsvRow)) :
    ∀ (i : Nat) (ts : TaggedState), ((tprocessRows i ts xs).1).length = xs.length := by
  induction xs with
  | nil => intro i ts; rfl
  | cons x xs ih =>
    intro i ts
    simp only [tprocessRows, List.length_cons]
    rw [ih]

lemma tprocessRows_get (xs : List (Except String ActionCsvRow)) :
    ∀ (i : Nat) (ts : TaggedState) (p : Nat) (hp : p < xs.length)
      (hq : p < ((tprocessRows i ts xs).1).length),
    ((tprocessRows i ts xs).1).get ⟨p, hq⟩ =
      (tprocess_csv_row (i + p) (xs.get ⟨p, hp⟩)
        ((tprocessRows i ts (xs.take p)).2)).1 := by
  induction xs with
  | nil => intro i ts p hp; exact absurd hp (by simp)
  | cons x xs ih =>
    intro i ts p hp hq
    cases p with
    | zero => simp [tprocessRows]
    | succ p =>
      have hp' : p < xs.length := Nat.lt_of_succ_lt_succ hp
      have hq' : p < ((tprocessRows (i + 1) (tprocess_csv_row i x ts).2 xs).1).length := by
        rw [tprocessRows_length]
        exact hp'
      have := ih (i + 1) (tprocess_csv_row i x ts).2 p hp' hq'
      simp only [tprocessRows, List.get_cons_succ, List.take_succ_cons]
      rw [show i + (p + 1) = i + 1 + p from by omega]
      exact this

/-- Run invariant of the tagged engine: every index stored in the
lookback buffer or in the pending-marker cell is below the index of the
next row to be processed. -/
def TInv (n : Nat) (ts : TaggedState) : Prop :=
  (∀ q ∈ ts.recent_rows, q.1 < n) ∧
  (∀ j m, ts.pending_error_marker = some (j, m) → j < n)

lemma tstep_TInv (i : Nat) (x : Except String ActionCsvRow) (ts : TaggedState)
    (h : TInv i ts) : TInv (i + 1) (tprocess_csv_row i x ts).2 := by
  constructor
  · intro q hq
    rcases tstep_recent i x ts q hq with h1 | h1
    · exact Nat.lt_succ_of_lt (h.1 q h1)
    · omega
  · intro j m hp
    rcases tstep_pending i x ts j m hp with h1 | h1
    · exact Nat.lt_succ_of_lt (h.2 j m h1)
    · omega

lemma tprocessRows_TInv (xs : List (Except String ActionCsvRow)) :
    ∀ (i : Nat) (ts : TaggedState), TInv i ts →
    TInv (i + xs.length) ((tprocessRows i ts xs).2) := by
  induction xs with
  | nil => intro i ts h; exact h
  | cons x xs ih =>
    intro i ts h
    have := ih (i + 1) (tprocess_csv_row i x ts).2 (tstep_TInv i x ts h)
    simp only [tprocessRows, List.length_cons]
    rw [show i + (xs.length + 1) = i + 1 + xs.length from by omega]
    exact this

lemma trun_tag_shape (xs : List (Except String ActionCsvRow)) (i : Nat)
    (ts : TaggedState) (hinv : TInv i ts) (p : Nat)
    (hq : p < ((tprocessRows i ts xs).1).length) (pt : ActionPlotPoint) (a mi : Nat)
    (h : ((tprocessRows i ts xs).1).get ⟨p, hq⟩ = some (.ok (pt, some (a, mi)))) :
    (a = i + p ∧ mi < i + p) ∨ (mi = i + p ∧ a ≤ i + p) := by
  have hp : p < xs.length := by rw [← tprocessRows_length xs i ts]; exact hq
  rw [tprocessRows_get xs i ts p hp hq] at h
  obtain ⟨raw, hx, hcase⟩ := tstep_tag _ _ _ _ _ _ h
  have hinv' : TInv (i + p) ((tprocessRows i ts (xs.take p)).2) := by
    have := tprocessRows_TInv (xs.take p) i ts hinv
    rwa [List.length_take, min_eq_left (le_of_lt hp)] at this
  rcases hcase with ⟨⟨mr, hpend, _, _⟩, ha⟩ | ⟨hmi, _, rb, hrb, _, _⟩
  · exact Or.inl ⟨ha, hinv'.2 mi mr hpend⟩
  · refine Or.inr ⟨hmi, ?_⟩
    rcases hrb with h2 | h2
    · exact le_of_lt (hinv'.1 (a, rb) h2)
    · omega

lemma trun_tag_unique (xs : List (Except String ActionCsvRow)) (i : Nat)
    (ts : TaggedState) (hinv : TInv i ts) (p1 p2 : Nat)
    (hq1 : p1 < ((tprocessRows i ts xs).1).length)
    (hq2 : p2 < ((tprocessRows i ts xs).1).length)
    (pt1 pt2 : ActionPlotPoint) (a mi : Nat)
    (h1 : ((tprocessRows i ts xs).1).get ⟨p1, hq1⟩ = some (.ok (pt1, some (a, mi))))
    (h2 : ((tprocessRows i ts xs).1).get ⟨p2, hq2⟩ = some (.ok (pt2, some (a, mi)))) :
    p1 = p2 := by
  have s1 := trun_tag_shape xs i ts hinv p1 hq1 pt1 a mi h1
  have s2 := trun_tag_shape xs i ts hinv p2 hq2 pt2 a mi h2
  omega

lemma trun_stale (xs : List (Except String ActionCsvRow)) :
    ∀ (i : Nat) (ts : TaggedState) (j0 : Nat), j0 < i →
    (∀ m, ts.pending_error_marker ≠ some (j0, m)) →
    (∀ m, ((tprocessRows i ts xs).2).pending_error_marker ≠ some (j0, m)) ∧
    (∀ (p : Nat) (hq : p < ((tprocessRows i ts xs).1).length)
      (pt : ActionPlotPoint) (a : Nat),
      ((tprocessRows i ts xs).1).get ⟨p, hq⟩ ≠ some (.ok (pt, some (a, j0)))) := by
  induction xs with
  | nil =>
    intro i ts j0 hji hpend
    exact ⟨hpend, fun p hq => absurd hq (by simp [tprocessRows])⟩
  | cons x xs ih =>
    intro i ts j0 hji hpend
    have hstep : ∀ m, ((tprocess_csv_row i x ts).2).pending_error_marker ≠
        some (j0, m) := by
      intro m hp
      rcases tstep_pending i x ts j0 m hp with h1 | h1
      · exact hpend m h1
      · omega
    have hih := ih (i + 1) (tprocess_csv_row i x ts).2 j0 (by omega) hstep
    constructor
    · intro m
      simp only [tprocessRows]
      exact hih.1 m
    · intro p hq pt a h
      cases p with
      | zero =>
        simp only [tprocessRows, List.get_cons_zero] at h
        obtain ⟨raw, hx, hcase⟩ := tstep_tag _ _ _ _ _ _ h
        rcases hcase with ⟨⟨mr, hpend', _, _⟩, _⟩ | ⟨hmi, _⟩
        · exact hpend mr hpend'
        · omega
      | succ p =>
        simp only [tprocessRows, List.get_cons_succ] at h
        exact hih.2 p (by simpa [tprocessRows] using Nat.lt_of_succ_lt_succ hq) pt a h

/-- The row (after `post_deserialize`) carried by the input at a given
index, when that input deserialized successfully. -/
def rowAt (xs0 : List (Except String ActionCsvRow)) (k : Nat) : Option ActionCsvRow :=
  match xs0.get? k with
  | some (.ok raw) => some (post_deserialize raw)
  | _ => none

/-- Alignment invariant: buffer entries and the pending marker hold the
parsed row of the input index they are tagged with, and the pending cell
only ever holds error markers. -/
def TAligned (xs0 : List (Except String ActionCsvRow)) (ts : TaggedState) : Prop :=
  (∀ q ∈ ts.recent_rows, rowAt xs0 q.1 = some q.2) ∧
  (∀ j m, ts.pending_error_marker = some (j, m) →
    rowAt xs0 j = some m ∧ is_error_action_marker m = true)

lemma tstep_TAligned (xs0 : List (Except String ActionCsvRow)) (n : Nat)
    (x : Except String ActionCsvRow) (ts : TaggedState)
    (hx : xs0.get? n = some x) (hal : TAligned xs0 ts) :
    TAligned xs0 (tprocess_csv_row n x ts).2 := by
  constructor
  · intro q hq
    rcases tstep_recent n x ts q hq with h1 | h1
    · exact hal.1 q h1
    · obtain ⟨hq1, raw, hraw, hq2⟩ := h1
      rw [hq1, hq2]
      unfold rowAt
      rw [hx, hraw]
  · intro j m hp
    rcases tstep_pending n x ts j m hp with h1 | h1
    · exact hal.2 j m h1
    · obtain ⟨hj, raw, hraw, hm, hmark⟩ := h1
      rw [hj, hm]
      refine ⟨?_, hm ▸ hmark⟩
      unfold rowAt
      rw [hx, hraw]

lemma trun_content (xs0 : List (Except String ActionCsvRow)) :
    ∀ (xs : List (Except String ActionCsvRow)) (n : Nat) (ts : TaggedState),
    (∀ (p : Nat) (hp : p < xs.length), xs0.get? (n + p) = some (xs.get ⟨p, hp⟩)) →
    TAligned xs0 ts →
    TAligned xs0 ((tprocessRows n ts xs).2) ∧
    (∀ (p : Nat) (hq : p < ((tprocessRows n ts xs).1).length)
      (pt : ActionPlotPoint) (a mi : Nat),
      ((tprocessRows n ts xs).1).get ⟨p, hq⟩ = some (.ok (pt, some (a, mi))) →
      ∃ A M, rowAt xs0 a = some A ∧ rowAt xs0 mi = some M ∧
        pt = .Error (ErroneousAction.new A M) ∧
        is_erroneous_action A M = true ∧ is_error_action_marker M = true) := by
  intro xs
  induction xs with
  | nil =>
    intro n ts hidx hal
    exact ⟨hal, fun p hq => absurd hq (by simp [tprocessRows])⟩
  | cons x xs ih =>
    intro n ts hidx hal
    have hx : xs0.get? n = some x := by
      have := hidx 0 (Nat.succ_pos xs.length)
      simpa using this
    have hal' := tstep_TAligned xs0 n x ts hx hal
    have hidx' : ∀ (p : Nat) (hp : p < xs.length),
        xs0.get? (n + 1 + p) = some (xs.get ⟨p, hp⟩) := by
      intro p hp
      have := hidx (p + 1) (by simpa using Nat.succ_lt_succ hp)
      rw [show n + (p + 1) = n + 1 + p from by omega] at this
      simpa using this
    have hih := ih (n + 1) (tprocess_csv_row n x ts).2 hidx' hal'
    constructor
    · simpa [tprocessRows] using hih.1
    · intro p hq pt a mi h
      cases p with
      | zero =>
        simp only [tprocessRows, List.get_cons_zero] at h
        obtain ⟨raw, hraw, hcase⟩ := tstep_tag _ _ _ _ _ _ h
        have hrowAt : rowAt xs0 n = some (post_deserialize raw) := by
          unfold rowAt
          rw [hx, hraw]
        rcases hcase with ⟨⟨mr, hpend, hpt, herr⟩, ha⟩ | ⟨hmi, hmark, rb, hrb, hpt, herr⟩
        · obtain ⟨hmr, hmmark⟩ := hal.2 mi mr hpend
          exact ⟨post_deserialize raw, mr, ha ▸ hrowAt, hmr, hpt, herr, hmmark⟩
        · rcases hrb with h2 | h2
          · exact ⟨rb, post_deserialize raw, hal.1 (a, rb) h2, hmi ▸ hrowAt, hpt, herr,
              hmark⟩
          · exact ⟨rb, post_deserialize raw, h2.1 ▸ h2.2 ▸ hrowAt, hmi ▸ hrowAt, hpt,
              herr, hmark⟩
      | succ p =>
        simp only [tprocessRows, List.get_cons_succ] at h
        exact hih.2 p (by simpa [tprocessRows] using Nat.lt_of_succ_lt_succ hq) pt a mi h

lemma boundary_subaction_name (r : ActionCsvRow) (h : is_stage_boundary r = true) :
    r.subaction_name = "" := by
  unfold is_stage_boundary at h
  simp only [Bool.and_eq_true, decide_eq_true_eq] at h
  tauto

lemma empty_name_check_cpr (r : ActionCsvRow) (h : r.subaction_name = "") :
    check_cpr r = none := by
  unfold check_cpr
  rw [h]
  simp only []
  rw [if_neg (by decide), if_neg (by decide)]

lemma check_cpr_not_boundary (r : ActionCsvRow) (c : ActionPlotPoint)
    (h : check_cpr r = some c) : is_stage_boundary r = false := by
  by_cases hb : is_stage_boundary r = true
  · rw [empty_name_check_cpr r (boundary_subaction_name r hb)] at h
    exact absurd h (by simp)
  · exact eq_false_of_ne_true hb

lemma stage_fn_single (l : PlotLocation) (row : ActionCsvRow) :
    ∃ l', (process_if_stage_boundary [l] row).2 = [l'] := by
  unfold process_if_stage_boundary
  by_cases hb : is_stage_boundary row = true
  · rw [if_neg (not_not_intro hb)]
    cases hps : row.parsed_stage with
    | none => exact ⟨l, rfl⟩
    | some st => exact ⟨PlotLocation.new row, rfl⟩
  · rw [if_pos hb]
    exact ⟨l, rfl⟩

lemma step_stage_single (i : Nat) (x : Except String ActionCsvRow)
    (st : CsvProcessingState) (l : PlotLocation) (h : st.stage_boundaries = [l]) :
    ∃ l', ((process_csv_row i x st).2).stage_boundaries = [l'] := by
  cases x with
  | error e => exact ⟨l, h⟩
  | ok raw =>
    simp only [process_csv_row]
    rw [h]
    obtain ⟨l', hl'⟩ := stage_fn_single l (post_deserialize raw)
    rcases hsb : process_if_stage_boundary [l] (post_deserialize raw) with ⟨osb, sb⟩
    rw [hsb] at hl'
    simp only at hl'
    cases osb with
    | some out => exact ⟨l', hl'⟩
    | none =>
      dsimp only
      rcases hcp : process_cpr_lines st.cpr_points (post_deserialize raw) with ⟨ocp, cp⟩
      cases ocp with
      | some out => exact ⟨l', hl'⟩
      | none =>
        dsimp only
        rcases hte : process_erroneous_action st.pending_error_marker
          (update_recent_rows (post_deserialize raw) st.recent_rows
            st.max_rows_to_check) i (post_deserialize raw) with ⟨oe, pe⟩
        cases oe with
        | some out => exact ⟨l', hl'⟩
        | none => exact ⟨l', hl'⟩

lemma processRows_stage_single (xs : List (Except String ActionCsvRow)) :
    ∀ (i : Nat) (st : CsvProcessingState) (l : PlotLocation),
    st.stage_boundaries = [l] →
    ∃ l', ((processRows i st xs).2).stage_boundaries = [l'] := by
  induction xs with
  | nil => intro i st l h; exact ⟨l, h⟩
  | cons x xs ih =>
    intro i st l h
    obtain ⟨l', hl'⟩ := step_stage_single i x st l h
    exact ih (i + 1) (process_csv_row i x st).2 l' hl'

lemma step_stage_boundary_behavior (i : Nat) (raw : ActionCsvRow)
    (st : CsvProcessingState) (l : PlotLocation) (stg : Nat × String)
    (hsb : st.stage_boundaries = [l])
    (hb : is_stage_boundary (post_deserialize raw) = true)
    (hstg : (post_deserialize raw).parsed_stage = some stg) :
    (process_csv_row i (.ok raw) st).1 =
      some (.ok (.Period .Stage (some { l with stage := stg })
        (some (PlotLocation.new (post_deserialize raw))))) ∧
    ((process_csv_row i (.ok raw) st).2).stage_boundaries =
      [PlotLocation.new (post_deserialize raw)] := by
  simp only [process_csv_row]
  rw [hsb]
  have hfn : process_if_stage_boundary [l] (post_deserialize raw) =
      (some (.ok (.Period .Stage (some { l with stage := stg })
        (some (PlotLocation.new (post_deserialize raw))))),
       [PlotLocation.new (post_deserialize raw)]) := by
    unfold process_if_stage_boundary
    rw [if_neg (not_not_intro hb), hstg]
  rw [hfn]
  exact ⟨rfl, rfl⟩

lemma step_reaches_marker (i : Nat) (raw : ActionCsvRow) (st : CsvProcessingState)
    (hb : is_stage_boundary (post_deserialize raw) = false)
    (hc : check_cpr (post_deserialize raw) = none ∨ st.cpr_points = []) :
    (∀ o, (process_erroneous_action st.pending_error_marker
        (update_recent_rows (post_deserialize raw) st.recent_rows
          st.max_rows_to_check) i (post_deserialize raw)).1 = some o →
      (process_csv_row i (.ok raw) st).1 = some o) ∧
    ((process_erroneous_action st.pending_error_marker
        (update_recent_rows (post_deserialize raw) st.recent_rows
          st.max_rows_to_check) i (post_deserialize raw)).1 = none →
      (process_csv_row i (.ok raw) st).1 = process_action_point (post_deserialize raw)) ∧
    ((process_csv_row i (.ok raw) st).2).pending_error_marker =
      (process_erroneous_action st.pending_error_marker
        (update_recent_rows (post_deserialize raw) st.recent_rows
          st.max_rows_to_check) i (post_deserialize raw)).2 := by
  simp only [process_csv_row]
  have hfn : process_if_stage_boundary st.stage_boundaries (post_deserialize raw) =
      (none, st.stage_boundaries) := by
    unfold process_if_stage_boundary
    rw [if_pos (by rw [hb]; exact Bool.false_ne_true)]
  rw [hfn]
  dsimp only
  have hcpr : (process_cpr_lines st.cpr_points (post_deserialize raw)).1 = none := by
    rcases hc with h1 | h1
    · unfold process_cpr_lines
      rw [h1]
    · unfold process_cpr_lines
      rw [h1]
      rcases hck : check_cpr (post_deserialize raw) with _ | c
      · rfl
      · rfl
  rcases hcp : process_cpr_lines st.cpr_points (post_deserialize raw) with ⟨ocp, cp⟩
  rw [hcp] at hcpr
  simp only at hcpr
  subst hcpr
  dsimp only
  rcases hte : process_erroneous_action st.pending_error_marker
    (update_recent_rows (post_deserialize raw) st.recent_rows
      st.max_rows_to_check) i (post_deserialize raw) with ⟨oe, pe⟩
  cases oe with
  | some out =>
    refine ⟨?_, ?_, rfl⟩
    · intro o ho
      simp only at ho
      rw [ho]
    · intro ho
      exact absurd ho (by simp)
  | none =>
    refine ⟨?_, ?_, rfl⟩
    · intro o ho
      exact absurd ho (by simp)
    · intro _
      rfl

lemma update_recent_rows_length (r : ActionCsvRow) (buf : List ActionCsvRow)
    (maxr : Nat) (h : buf.length ≤ max maxr 1) :
    (update_recent_rows r buf maxr).length ≤ max maxr 1 := by
  unfold update_recent_rows
  by_cases hge : buf.length ≥ maxr
  · rw [if_pos hge]
    rw [List.length_append, List.length_tail]
    simp only [List.length_singleton]
    omega
  · rw [if_neg hge]
    rw [List.length_append]
    simp only [List.length_singleton]
    omega

lemma step_max_unchanged (i : Nat) (x : Except String ActionCsvRow)
    (st : CsvProcessingState) :
    ((process_csv_row i x st).2).max_rows_to_check = st.max_rows_to_check := by
  cases x with
  | error e => rfl
  | ok raw =>
    simp only [process_csv_row]
    rcases hsb : process_if_stage_boundary st.stage_boundaries (post_deserialize raw)
      with ⟨osb, sb⟩
    cases osb with
    | some out => rfl
    | none =>
      dsimp only
      rcases hcp : process_cpr_lines st.cpr_points (post_deserialize raw) with ⟨ocp, cp⟩
      cases ocp with
      | some out => rfl
      | none =>
        dsimp only
        rcases hte : process_erroneous_action st.pending_error_marker
          (update_recent_rows (post_deserialize raw) st.recent_rows
            st.max_rows_to_check) i (post_deserialize raw) with ⟨oe, pe⟩
        cases oe with
        | some out => rfl
        | none => rfl

lemma step_recent_rows (i : Nat) (raw : ActionCsvRow) (st : CsvProcessingState) :
    ((process_csv_row i (.ok raw) st).2).recent_rows =
      update_recent_rows (post_deserialize raw) st.recent_rows st.max_rows_to_check := by
  simp only [process_csv_row]
  rcases hsb : process_if_stage_boundary st.stage_boundaries (post_deserialize raw)
    with ⟨osb, sb⟩
  cases osb with
  | some out => rfl
  | none =>
    dsimp only
    rcases hcp : process_cpr_lines st.cpr_points (post_deserialize raw) with ⟨ocp, cp⟩
    cases ocp with
    | some out => rfl
    | none =>
      dsimp only
      rcases hte : process_erroneous_action st.pending_error_marker
        (update_recent_rows (post_deserialize raw) st.recent_rows
          st.max_rows_to_check) i (post_deserialize raw) with ⟨oe, pe⟩
      cases oe with
      | some out => rfl
      | none => rfl

lemma processRows_recent_len (xs : List (Except String ActionCsvRow)) :
    ∀ (i : Nat) (st : CsvProcessingState),
    st.recent_rows.length ≤ max st.max_rows_to_check 1 →
    ((processRows i st xs).2).recent_rows.length ≤
      max (((processRows i st xs).2).max_rows_to_check) 1 := by
  induction xs with
  | nil => intro i st h; exact h
  | cons x xs ih =>
    intro i st h
    apply ih
    rw [step_max_unchanged]
    cases x with
    | error e => exact h
    | ok raw =>
      rw [step_recent_rows]
      exact update_recent_rows_length _ _ _ h

lemma processRows_max (xs : List (Except String ActionCsvRow)) :
    ∀ (i : Nat) (st : CsvProcessingState),
    ((processRows i st xs).2).max_rows_to_check = st.max_rows_to_check := by
  induction xs with
  | nil => intro i st; rfl
  | cons x xs ih =>
    intro i st
    rw [show (processRows i st (x :: xs)).2 =
      (processRows (i + 1) (process_csv_row i x st).2 xs).2 from rfl]
    rw [ih, step_max_unchanged]

/-!
Claim-side definitions (phrased from the specification's wording, for
comparison with the source-derived predicates) and concrete example
rows used by witnesses and counterexamples.
-/

/-- Total-elapsed-seconds of a row, with a missing timestamp treated as
timestamp 0, as the specification words it. -/
def rowSeconds (r : ActionCsvRow) : Nat :=
  match r.timestamp with
  | some t => t.total_seconds
  | none => 0

/-- Stage-boundary predicate as the claim words it: parsed stage present
and subaction-time, subaction-name, score, old-value, new-value ALL
empty after trimming. -/
def spec_is_stage_boundary (r : ActionCsvRow) : Bool :=
  r.parsed_stage.isSome &&
  (trimStr r.subaction_time = "") &&
  (trimStr r.subaction_name = "") &&
  (trimStr r.score = "") &&
  (trimStr r.old_value = "") &&
  (trimStr r.new_value = "")

/-- Action-point predicate as the claim words it: parsed stage present
and trimmed subaction-time and trimmed subaction-name both non-empty. -/
def spec_is_action_row (r : ActionCsvRow) : Bool :=
  r.parsed_stage.isSome &&
  !(trimStr r.subaction_time = "") &&
  !(trimStr r.subaction_name = "")

/-- Example action-point row: stage (1, "S"), performed at 100 s. -/
def exRowA : ActionCsvRow :=
  { ActionCsvRow.default with
    timestamp := some { total_seconds := 100, date_string := "", timestamp := "00:01:40" },
    action_vital_name := "(1) S (action)",
    subaction_time := "1",
    subaction_name := "x" }

/-- Example error-marker row at 100 s whose username field names
`exRowA`'s vital-name field. -/
def exRowM : ActionCsvRow :=
  { ActionCsvRow.default with
    timestamp := some { total_seconds := 100, date_string := "", timestamp := "00:01:40" },
    old_value := "Error-Triggered",
    score := "Action-Was-Performed",
    username := "(1) S (action)" }

/-- Example stage-boundary row for stage (1, "Stage A") at 10 s. -/
def exStage1 : ActionCsvRow :=
  { ActionCsvRow.default with
    timestamp := some { total_seconds := 10, date_string := "", timestamp := "00:00:10" },
    action_vital_name := "(1) Stage A (action)" }

/-- Example stage-boundary row far in the future (200 s). -/
def exStageFar : ActionCsvRow :=
  { ActionCsvRow.default with
    timestamp := some { total_seconds := 200, date_string := "", timestamp := "00:03:20" },
    action_vital_name := "(2) Stage B (action)" }

/-- Example action row at 101 s whose vital-name is named by
`exRowM`'s username (for the out-of-order pairing counterexample its
vital-name matches the marker `exM100`). -/
def exA101 : ActionCsvRow :=
  { ActionCsvRow.default with
    timestamp := some { total_seconds := 101, date_string := "", timestamp := "00:01:41" },
    action_vital_name := "(3) T (action)",
    subaction_time := "1",
    subaction_name := "y" }

/-- Example error-marker row at 100 s naming `exA101`'s vital-name. -/
def exM100 : ActionCsvRow :=
  { ActionCsvRow.default with
    timestamp := some { total_seconds := 100, date_string := "", timestamp := "00:01:40" },
    old_value := "Error-Triggered",
    score := "Action-Was-Performed",
    username := "(3) T (action)" }

/-- Example CPR start-marker row at 5 s. -/
def exCprBegin : ActionCsvRow :=
  { ActionCsvRow.default with
    timestamp := some { total_seconds := 5, date_string := "", timestamp := "00:00:05" },
    subaction_name := "Begin CPR" }

/-- Example CPR end-marker row at 120 s. -/
def exCprEnd : ActionCsvRow :=
  { ActionCsvRow.default with
    timestamp := some { total_seconds := 120, date_string := "", timestamp := "00:02:00" },
    subaction_name := "End CPR" }

/-- Example row that is simultaneously a CPR end marker and an error
marker. -/
def exMarkerCprEnd : ActionCsvRow :=
  { ActionCsvRow.default with
    timestamp := some { total_seconds := 6, date_string := "", timestamp := "00:00:06" },
    subaction_name := "End CPR",
    old_value := "Error-Triggered",
    score := "Action-Was-Performed",
    username := "u" }

/-- C3: for every pair of rows, can-mark-each-other holds iff the
absolute difference of their total-elapsed-seconds timestamps is at most
2, a row with no timestamp counting as timestamp 0; and
is-erroneous-action(A, M) holds iff A is an action point, M's username
field equals A's vital-name field, and A and M can mark each other. -/
theorem C3_matching_predicates (r1 r2 rA rM : ActionCsvRow) :
    (can_mark_each_other r1 r2 = true ↔
      ((rowSeconds r1 : Int) - (rowSeconds r2 : Int)).natAbs ≤ 2) ∧
    (is_erroneous_action rA rM = true ↔
      (rA.action_point = true ∧ rM.username = rA.action_vital_name ∧
        can_mark_each_other rA rM = true)) := by
  constructor
  · unfold can_mark_each_other ERROR_MARKER_TIME_THRESHOLD rowSeconds
    cases h1 : r1.timestamp <;> cases h2 : r2.timestamp <;>
      · simp only [Option.getD_some, Option.getD_none, decide_eq_true_eq,
          CsvRowTime.default]
        omega
  · unfold is_erroneous_action
    simp only [Bool.and_eq_true, decide_eq_true_eq]
    tauto

/-- C7 (amended): is-stage-boundary holds iff a parsed stage is present,
the subaction-time field is empty after trimming, and the
subaction-name, score, old-value and new-value fields are empty as-is
(untrimmed); is-action-point holds iff a parsed stage is present, the
trimmed subaction-time is non-empty and the raw subaction-name is
non-empty; the error-marker and missed-action predicates compare the
trimmed old-value and score fields. -/
theorem C7_predicate_fields (r : ActionCsvRow) :
    (is_stage_boundary r = true ↔
      (r.parsed_stage.isSome = true ∧ trimStr r.subaction_time = "" ∧
        r.subaction_name = "" ∧ r.score = "" ∧ r.old_value = "" ∧
        r.new_value = "")) ∧
    (is_action_row r = true ↔
      (r.parsed_stage.isSome = true ∧ trimStr r.subaction_time ≠ "" ∧
        r.subaction_name ≠ "")) ∧
    (is_error_action_marker r = true ↔
      (trimStr r.old_value = "Error-Triggered" ∧
        trimStr r.score = "Action-Was-Performed")) ∧
    (is_missed_action r = true ↔
      (trimStr r.old_value = "Error-Triggered" ∧
        trimStr r.score = "Action-Was-Not-Performed")) := by
  refine ⟨?_, ?_, ?_, ?_⟩
  · unfold is_stage_boundary
    simp only [Bool.and_eq_true, decide_eq_true_eq]
    tauto
  · unfold is_action_row
    simp only [Bool.and_eq_true, Bool.not_eq_true', decide_eq_false_iff_not,
      decide_eq_true_eq]
    tauto
  · unfold is_error_action_marker
    simp only [Bool.and_eq_true, decide_eq_true_eq]
  · unfold is_missed_action
    simp only [Bool.and_eq_true, decide_eq_true_eq]

/-- Row with a whitespace-only subaction-name: a stage boundary under
the claim's all-trimmed reading but not for the code. -/
def exWsName : ActionCsvRow :=
  { ActionCsvRow.default with
    action_vital_name := "(1) X (action)",
    subaction_name := " " }

/-- Row with a whitespace-only subaction-name and a non-empty
subaction-time: an action point for the code but not under the claim's
trimmed reading. -/
def exWsNameAction : ActionCsvRow :=
  { ActionCsvRow.default with
    action_vital_name := "(1) X (action)",
    subaction_time := "1",
    subaction_name := " " }

/-- C7 counterexample: the code compares the subaction-name field
untrimmed, so a whitespace-only subaction-name defeats the claim's
"all string comparisons are on trimmed text" reading in both
directions. -/
theorem C7_counterexample :
    spec_is_stage_boundary (post_deserialize exWsName) = true ∧
    is_stage_boundary (post_deserialize exWsName) = false ∧
    spec_is_action_row (post_deserialize exWsNameAction) = false ∧
    is_action_row (post_deserialize exWsNameAction) = true := by
  decide

/-- C8 (amended): timestamp construction succeeds exactly on inputs
consisting of three colon-separated `u32`-parseable parts whose minutes
and seconds are each in [0,60), and on success returns total elapsed
seconds equal to (hours*3600 + minutes*60 + seconds) reduced modulo
2^32 (u32 wrapping arithmetic) together with the zero-padded normalized
HH:MM:SS string; on any other input it fails. -/
theorem C8_parse_time (year month day : Nat) (s : String) :
    ((parse_time year month day s).isSome = true ↔
      ∃ p0 p1 p2 h m sec,
        (splitChars (fun c => c = ':') s.data).map String.mk = [p0, p1, p2] ∧
        parse_u32 p0 = some h ∧ parse_u32 p1 = some m ∧ parse_u32 p2 = some sec ∧
        m < 60 ∧ sec < 60) ∧
    (∀ t, parse_time year month day s = some t →
      ∃ p0 p1 p2 h m sec,
        (splitChars (fun c => c = ':') s.data).map String.mk = [p0, p1, p2] ∧
        parse_u32 p0 = some h ∧ parse_u32 p1 = some m ∧ parse_u32 p2 = some sec ∧
        m < 60 ∧ sec < 60 ∧
        t.total_seconds = (h * 3600 + m * 60 + sec) % 4294967296 ∧
        t.timestamp = pad2 h ++ ":" ++ pad2 m ++ ":" ++ pad2 sec) := by
  refine ⟨⟨?_, ?_⟩, ?_⟩
  · intro hsome
    unfold parse_time at hsome
    rcases hsp : (splitChars (fun c => c = ':') s.data).map String.mk
      with _ | ⟨p0, _ | ⟨p1, _ | ⟨p2, _ | ⟨p3, l4⟩⟩⟩⟩
    · rw [hsp] at hsome
      exact absurd hsome (by simp)
    · rw [hsp] at hsome
      exact absurd hsome (by simp)
    · rw [hsp] at hsome
      exact absurd hsome (by simp)
    · rw [hsp] at hsome
      dsimp only at hsome
      rcases h0 : parse_u32 p0 with _ | hv
      · rw [h0] at hsome
        exact absurd hsome (by simp)
      rcases h1 : parse_u32 p1 with _ | mv
      · rw [h0, h1] at hsome
        exact absurd hsome (by simp)
      rcases h2 : parse_u32 p2 with _ | sv
      · rw [h0, h1, h2] at hsome
        exact absurd hsome (by simp)
      rw [h0, h1, h2] at hsome
      dsimp only at hsome
      by_cases hrange : mv ≥ 60 ∨ sv ≥ 60
      · rw [if_pos hrange] at hsome
        exact absurd hsome (by simp)
      · exact ⟨p0, p1, p2, hv, mv, sv, rfl, h0, h1, h2, by omega, by omega⟩
    · rw [hsp] at hsome
      exact absurd hsome (by simp)
  · rintro ⟨p0, p1, p2, hh, mm, ss, heq, e0, e1, e2, hm, hsx⟩
    unfold parse_time
    rw [heq]
    dsimp only
    rw [e0, e1, e2]
    dsimp only
    rw [if_neg (by omega)]
    rfl
  · intro t ht
    unfold parse_time at ht
    rcases hsp : (splitChars (fun c => c = ':') s.data).map String.mk
      with _ | ⟨p0, _ | ⟨p1, _ | ⟨p2, _ | ⟨p3, l4⟩⟩⟩⟩
    · rw [hsp] at ht
      exact absurd ht (by simp)
    · rw [hsp] at ht
      exact absurd ht (by simp)
    · rw [hsp] at ht
      exact absurd ht (by simp)
    · rw [hsp] at ht
      dsimp only at ht
      rcases h0 : parse_u32 p0 with _ | hv
      · rw [h0] at ht
        exact absurd ht (by simp)
      rcases h1 : parse_u32 p1 with _ | mv
      · rw [h0, h1] at ht
        exact absurd ht (by simp)
      rcases h2 : parse_u32 p2 with _ | sv
      · rw [h0, h1, h2] at ht
        exact absurd ht (by simp)
      rw [h0, h1, h2] at ht
      dsimp only at ht
      by_cases hrange : mv ≥ 60 ∨ sv ≥ 60
      · rw [if_pos hrange] at ht
        exact absurd ht (by simp)
      · rw [if_neg hrange] at ht
        simp only [Option.some.injEq] at ht
        refine ⟨p0, p1, p2, hv, mv, sv, rfl, h0, h1, h2, by omega, by omega, ?_, ?_⟩
        · rw [← ht]
        · rw [← ht]
    · rw [hsp] at ht
      exact absurd ht (by simp)

/-- C8 witness: "01:02:03" parses to 3723 seconds with the normalized
timestamp string. -/
theorem C8_parse_time_witness :
    ∃ p0 p1 p2 h m sec,
      (splitChars (fun c => c = ':') ("01:02:03" : String).data).map String.mk =
        [p0, p1, p2] ∧
      parse_u32 p0 = some h ∧ parse_u32 p1 = some m ∧ parse_u32 p2 = some sec ∧
      m < 60 ∧ sec < 60 ∧
      ({ total_seconds := 3723, date_string := "2026-10-12 01:02:03",
         timestamp := "01:02:03" } : CsvRowTime).total_seconds =
        (h * 3600 + m * 60 + sec) % 4294967296 ∧
      ({ total_seconds := 3723, date_string := "2026-10-12 01:02:03",
         timestamp := "01:02:03" } : CsvRowTime).timestamp =
        pad2 h ++ ":" ++ pad2 m ++ ":" ++ pad2 sec :=
  (C8_parse_time 2026 10 12 "01:02:03").2
    { total_seconds := 3723, date_string := "2026-10-12 01:02:03",
      timestamp := "01:02:03" } (by decide)

/-- C8 counterexample: for 1193047 hours the u32 total wraps, so the
returned total-seconds is not `hours*3600 + minutes*60 + seconds`. -/
theorem C8_counterexample :
    parse_time 2026 10 12 "1193047:00:00" =
      some { total_seconds := 1904, date_string := "2026-10-12 1193047:00:00",
             timestamp := "1193047:00:00" } ∧
    (1904 : Nat) ≠ 1193047 * 3600 + 0 * 60 + 0 := by
  constructor
  · decide
  · decide

/-- C9: a row whose CSV deserialization fails yields exactly one error
result for that row, the processing state (lookback buffer, stage
tracker, CPR tracker, pending-marker cell) is returned unchanged, and
processing of the remaining rows continues from that same state. -/
theorem C9_deserialize_error (i : Nat) (e : String) (st : CsvProcessingState)
    (ys : List (Except String ActionCsvRow)) :
    process_csv_row i (.error e) st =
      (some (.error ("Could not deserialize row: " ++ e)), st) ∧
    processRows i st ((.error e) :: ys) =
      (some (.error ("Could not deserialize row: " ++ e)) ::
        (processRows (i + 1) st ys).1, (processRows (i + 1) st ys).2) :=
  ⟨rfl, rfl⟩

/-- C10: after each successfully parsed row the lookback buffer holds at
most max(N, 1) rows, the current row included at the back: the oldest
row is evicted exactly when the buffer already holds at least N rows,
and for N = 0 exactly one row remains retained after any parsed row. -/
theorem C10_lookback_bound (N : Nat) (xs : List (Except String ActionCsvRow))
    (r : ActionCsvRow) (buf : List ActionCsvRow) (m i : Nat)
    (st : CsvProcessingState) (raw : ActionCsvRow) :
    ((processRows 0 (CsvProcessingState.new N) xs).2).recent_rows.length ≤ max N 1 ∧
    (buf.length ≥ m → update_recent_rows r buf m = buf.tail ++ [r]) ∧
    (buf.length < m → update_recent_rows r buf m = buf ++ [r]) ∧
    (st.recent_rows.length ≤ max st.max_rows_to_check 1 →
      st.max_rows_to_check = 0 →
      ((process_csv_row i (.ok raw) st).2).recent_rows.length = 1) ∧
    ((process_csv_row i (.ok raw) st).2).recent_rows.getLast? =
      some (post_deserialize raw) := by
  refine ⟨?_, ?_, ?_, ?_, ?_⟩
  · have h := processRows_recent_len xs 0 (CsvProcessingState.new N) (by simp [CsvProcessingState.new])
    rwa [processRows_max] at h
  · intro h
    unfold update_recent_rows
    rw [if_pos h]
  · intro h
    unfold update_recent_rows
    rw [if_neg (by omega)]
  · intro hlen hzero
    rw [step_recent_rows]
    unfold update_recent_rows
    rw [if_pos (by omega)]
    rw [List.length_append, List.length_tail]
    simp only [List.length_singleton]
    rw [hzero] at hlen
    simp only [Nat.max_self, Nat.zero_max] at hlen
    omega
  · rw [step_recent_rows]
    unfold update_recent_rows
    exact List.getLast?_concat _

/-- C10 witness: with window size 1 and a one-row buffer, the oldest row
is evicted and the new row is retained at the back. -/
theorem C10_lookback_bound_witness :
    ([post_deserialize exRowA] : List ActionCsvRow).length ≥ 1 ∧
    update_recent_rows (post_deserialize exRowM) [post_deserialize exRowA] 1 =
      ([post_deserialize exRowA] : List ActionCsvRow).tail ++
        [post_deserialize exRowM] :=
  ⟨by decide,
    (C10_lookback_bound 1 [] (post_deserialize exRowM) [post_deserialize exRowA] 1 0
      (CsvProcessingState.new 1) exRowA).2.1 (by decide)⟩

/-- C1 (amended): the stage tracker always holds exactly one open
boundary location, initialized at startup to the default location
(time 00:00:00, stage (0, "")); every stage-boundary row closes it by
emitting exactly one Period(Stage, start, end) whose start is the open
location with its stage replaced by the current row's parsed stage and
whose end is the current row's location, and re-opens at the current
row.  Hence the Nth and (N+1)th stage-boundary rows produce exactly one
period between them, and the first stage-boundary row already produces
a period whose start is the initial default location. -/
theorem C1_stage_tracker (N : Nat) (xs : List (Except String ActionCsvRow))
    (i : Nat) (st : CsvProcessingState) (l : PlotLocation) (raw : ActionCsvRow)
    (stg : Nat × String) :
    (∃ l0, ((processRows 0 (CsvProcessingState.new N) xs).2).stage_boundaries = [l0]) ∧
    (CsvProcessingState.new N).stage_boundaries = [PlotLocation.default] ∧
    (st.stage_boundaries = [l] →
      is_stage_boundary (post_deserialize raw) = true →
      (post_deserialize raw).parsed_stage = some stg →
      (process_csv_row i (.ok raw) st).1 =
        some (.ok (.Period .Stage (some { l with stage := stg })
          (some (PlotLocation.new (post_deserialize raw))))) ∧
      ((process_csv_row i (.ok raw) st).2).stage_boundaries =
        [PlotLocation.new (post_deserialize raw)]) :=
  ⟨processRows_stage_single xs 0 (CsvProcessingState.new N) PlotLocation.default rfl,
   rfl,
   fun h1 h2 h3 => step_stage_boundary_behavior i raw st l stg h1 h2 h3⟩

/-- C1 witness: from the freshly initialized state, the stage-boundary
row `exStage1` closes the initial default boundary and emits a period
from the default location (with the stage replaced by (1, "Stage A"))
to its own location. -/
theorem C1_stage_tracker_witness :
    (CsvProcessingState.new 5).stage_boundaries = [PlotLocation.default] ∧
    is_stage_boundary (post_deserialize exStage1) = true ∧
    (post_deserialize exStage1).parsed_stage = some (1, "Stage A") ∧
    ((process_csv_row 0 (.ok exStage1) (CsvProcessingState.new 5)).1 =
      some (.ok (.Period .Stage
        (some { PlotLocation.default with stage := (1, "Stage A") })
        (some (PlotLocation.new (post_deserialize exStage1))))) ∧
     ((process_csv_row 0 (.ok exStage1) (CsvProcessingState.new 5)).2).stage_boundaries =
       [PlotLocation.new (post_deserialize exStage1)]) :=
  ⟨by decide, by decide, by decide,
   (C1_stage_tracker 5 [] 0 (CsvProcessingState.new 5) PlotLocation.default exStage1
     (1, "Stage A")).2.2 (by decide) (by decide) (by decide)⟩

/-- C1 counterexample: the very first stage-boundary row of a run
already emits a Period(Stage, default-location-with-stage-replaced,
row-location); the claim's two-state machine (first boundary row opens
and emits nothing) does not hold because the tracker is born with the
default location already open. -/
theorem C1_counterexample :
    is_stage_boundary (post_deserialize exStage1) = true ∧
    (processRows 0 (CsvProcessingState.new 5) [.ok exStage1]).1 =
      [some (.ok (.Period .Stage
        (some { timestamp := CsvRowTime.default, stage := (1, "Stage A") })
        (some { timestamp := { total_seconds := 10, date_string := "",
                               timestamp := "00:00:10" },
                stage := (1, "Stage A") })))] := by
  constructor
  · decide
  · decide

/-- Partial interval carrying only a start location. -/
def isStartPartial (p : ActionPlotPoint) : Bool :=
  match p with
  | .Period _ (some _) none => true
  | _ => false

/-- Partial interval carrying only an end location. -/
def isEndPartial (p : ActionPlotPoint) : Bool :=
  match p with
  | .Period _ none (some _) => true
  | _ => false

/-- Partial interval: a period with exactly one endpoint, as produced
by `check_cpr`. -/
def isPartialInterval (p : ActionPlotPoint) : Bool :=
  isStartPartial p || isEndPartial p

/-- Two partial intervals in the same direction (two starts or two
ends). -/
def sameDirection (p q : ActionPlotPoint) : Bool :=
  (isStartPartial p && isStartPartial q) || (isEndPartial p && isEndPartial q)

/-- Period type of a period point. -/
def periodTypeOf (p : ActionPlotPoint) : Option PeriodType :=
  match p with
  | .Period t _ _ => some t
  | _ => none

lemma partial_shape (p : ActionPlotPoint) (h : isPartialInterval p = true) :
    ∃ t, (∃ loc, p = .Period t (some loc) none) ∨
      (∃ loc, p = .Period t none (some loc)) := by
  unfold isPartialInterval isStartPartial isEndPartial at h
  rcases p with e | a | m | ⟨t, os, oe⟩ <;> simp only [Bool.or_eq_true] at h
  · rcases h with h | h <;> exact absurd h (by simp)
  · rcases h with h | h <;> exact absurd h (by simp)
  · rcases h with h | h <;> exact absurd h (by simp)
  · cases os <;> cases oe
    · rcases h with h | h <;> exact absurd h (by simp)
    · exact ⟨t, Or.inr ⟨_, rfl⟩⟩
    · exact ⟨t, Or.inl ⟨_, rfl⟩⟩
    · rcases h with h | h <;> exact absurd h (by simp)

lemma check_cpr_shape (r : ActionCsvRow) (c : ActionPlotPoint)
    (h : check_cpr r = some c) :
    c = .Period .CPR (some (PlotLocation.new r)) none ∨
    c = .Period .CPR none (some (PlotLocation.new r)) := by
  unfold check_cpr at h
  simp only at h
  split at h
  · simp only [Option.some.injEq] at h
    exact Or.inl h.symm
  · split at h
    · simp only [Option.some.injEq] at h
      exact Or.inr h.symm
    · exact absurd h (by simp)

/-- C6: when a CPR marker row arrives while one partial CPR interval is
pending, the two partial intervals are merged and emitted for that row
and the tracker returns to idle; the merge of two partial intervals is
an error exactly when they have the same direction (two starts or two
ends) or carry different period types, and when neither holds the
result is a single full Period(CPR, start, end). -/
theorem C6_cpr_merge (st : CsvProcessingState) (i : Nat) (raw : ActionCsvRow)
    (prev cpr : ActionPlotPoint)
    (hck : check_cpr (post_deserialize raw) = some cpr)
    (hst : st.cpr_points = [prev])
    (hprev : isPartialInterval prev = true) :
    (process_csv_row i (.ok raw) st).1 =
      some (merge_plot_location_range (some cpr) (some prev)) ∧
    ((process_csv_row i (.ok raw) st).2).cpr_points = [] ∧
    (∀ p q, isPartialInterval p = true → isPartialInterval q = true →
      ((∃ e, merge_plot_location_range (some p) (some q) = .error e) ↔
        (sameDirection p q = true ∨ periodTypeOf p ≠ periodTypeOf q))) ∧
    (sameDirection cpr prev = false → periodTypeOf prev = some .CPR →
      ∃ sloc eloc, merge_plot_location_range (some cpr) (some prev) =
        .ok (.Period .CPR (some sloc) (some eloc))) := by
  have hb : is_stage_boundary (post_deserialize raw) = false :=
    check_cpr_not_boundary _ _ hck
  have hpipe : (process_csv_row i (.ok raw) st).1 =
      some (merge_plot_location_range (some cpr) (some prev)) ∧
      ((process_csv_row i (.ok raw) st).2).cpr_points = [] := by
    simp only [process_csv_row]
    have hfn : process_if_stage_boundary st.stage_boundaries (post_deserialize raw) =
        (none, st.stage_boundaries) := by
      unfold process_if_stage_boundary
      rw [if_pos (by rw [hb]; exact Bool.false_ne_true)]
    rw [hfn]
    dsimp only
    have hcp : process_cpr_lines st.cpr_points (post_deserialize raw) =
        (some (merge_plot_location_range (some cpr) (some prev)), []) := by
      unfold process_cpr_lines
      rw [hck, hst]
    rw [hcp]
    exact ⟨rfl, rfl⟩
  refine ⟨hpipe.1, hpipe.2, ?_, ?_⟩
  · intro p q hp hq
    obtain ⟨t1, hp1⟩ := partial_shape p hp
    obtain ⟨t2, hq1⟩ := partial_shape q hq
    rcases hp1 with ⟨a, rfl⟩ | ⟨a, rfl⟩ <;> rcases hq1 with ⟨b, rfl⟩ | ⟨b, rfl⟩ <;>
      · by_cases ht : t1 = t2
        · subst ht
          simp [merge_plot_location_range, merge_loc_pair, sameDirection,
            isStartPartial, isEndPartial, periodTypeOf]
        · simp [merge_plot_location_range, merge_loc_pair, sameDirection,
            isStartPartial, isEndPartial, periodTypeOf, ht]
  · intro hdir htype
    rcases check_cpr_shape _ _ hck with rfl | rfl
    · obtain ⟨t2, hq1⟩ := partial_shape prev hprev
      rcases hq1 with ⟨b, rfl⟩ | ⟨b, rfl⟩
      · exact absurd hdir (by simp [sameDirection, isStartPartial, isEndPartial])
      · simp only [periodTypeOf, Option.some.injEq] at htype
        subst htype
        exact ⟨PlotLocation.new (post_deserialize raw), b,
          by simp [merge_plot_location_range, merge_loc_pair]⟩
    · obtain ⟨t2, hq1⟩ := partial_shape prev hprev
      rcases hq1 with ⟨b, rfl⟩ | ⟨b, rfl⟩
      · simp only [periodTypeOf, Option.some.injEq] at htype
        subst htype
        exact ⟨b, PlotLocation.new (post_deserialize raw),
          by simp [merge_plot_location_range, merge_loc_pair]⟩
      · exact absurd hdir (by simp [sameDirection, isStartPartial, isEndPartial])

/-- C6 witness: a "Begin CPR" marker followed by an "End CPR" marker
merges into the full period from the begin location to the end
location; the state after the begin row holds exactly the pending
start-partial interval. -/
theorem C6_cpr_merge_witness :
    check_cpr (post_deserialize exCprEnd) =
      some (.Period .CPR none (some (PlotLocation.new (post_deserialize exCprEnd)))) ∧
    ((processRows 0 (CsvProcessingState.new 5) [.ok exCprBegin]).2).cpr_points =
      [.Period .CPR (some (PlotLocation.new (post_deserialize exCprBegin))) none] ∧
    (process_csv_row 1 (.ok exCprEnd)
        (processRows 0 (CsvProcessingState.new 5) [.ok exCprBegin]).2).1 =
      some (merge_plot_location_range
        (some (.Period .CPR none (some (PlotLocation.new (post_deserialize exCprEnd)))))
        (some (.Period .CPR (some (PlotLocation.new (post_deserialize exCprBegin))) none))) ∧
    ((process_csv_row 1 (.ok exCprEnd)
        (processRows 0 (CsvProcessingState.new 5) [.ok exCprBegin]).2).2).cpr_points = [] :=
  ⟨by decide, by decide,
   (C6_cpr_merge (processRows 0 (CsvProcessingState.new 5) [.ok exCprBegin]).2 1
     exCprEnd
     (.Period .CPR (some (PlotLocation.new (post_deserialize exCprBegin))) none)
     (.Period .CPR none (some (PlotLocation.new (post_deserialize exCprEnd))))
     (by decide) (by decide) (by decide)).1,
   (C6_cpr_merge (processRows 0 (CsvProcessingState.new 5) [.ok exCprBegin]).2 1
     exCprEnd
     (.Period .CPR (some (PlotLocation.new (post_deserialize exCprBegin))) none)
     (.Period .CPR none (some (PlotLocation.new (post_deserialize exCprEnd))))
     (by decide) (by decide) (by decide)).2.1⟩

lemma check_pending_none_of_nofire (pending : Option (Nat × ActionCsvRow))
    (row : ActionCsvRow)
    (hnofire : ∀ j mr, pending = some (j, mr) → is_erroneous_action row mr = false) :
    (check_pending_erroneous_action_marker pending row).1 = none := by
  unfold check_pending_erroneous_action_marker
  cases hp : pending with
  | none => rfl
  | some jm =>
    obtain ⟨j0, m0⟩ := jm
    dsimp only
    rw [hnofire j0 m0 hp]
    simp only [Bool.false_eq_true, if_false]
    split <;> rfl

/-- C4 (amended): whenever the current row is an error marker that
reaches the marker-correlation stage (it is not consumed by the
stage-boundary handler or by a CPR merge) and no pending-marker match
fired for it, the lookback buffer (which already contains the current
row) is searched from most recent to oldest and the first row
satisfying the erroneous-action predicate wins, emitted immediately as
an ErroneousAction on the marker's own row; if no buffered row
qualifies, the marker is stored as the single pending marker, silently
replacing any still-pending unresolved marker; and a marker occurrence
that is no longer in the pending cell is never retried: its index never
reappears in the pending cell nor in any later tagged emission. -/
theorem C4_backward_search (st : CsvProcessingState) (i : Nat) (raw : ActionCsvRow)
    (hb : is_stage_boundary (post_deserialize raw) = false)
    (hc : check_cpr (post_deserialize raw) = none ∨ st.cpr_points = [])
    (hm : is_error_action_marker (post_deserialize raw) = true)
    (hnofire : ∀ j mr, st.pending_error_marker = some (j, mr) →
      is_erroneous_action (post_deserialize raw) mr = false) :
    (∀ A, (update_recent_rows (post_deserialize raw) st.recent_rows
        st.max_rows_to_check).reverse.find?
          (fun rr => is_erroneous_action rr (post_deserialize raw)) = some A →
      (process_csv_row i (.ok raw) st).1 =
        some (.ok (.Error (ErroneousAction.new A (post_deserialize raw))))) ∧
    ((update_recent_rows (post_deserialize raw) st.recent_rows
        st.max_rows_to_check).reverse.find?
          (fun rr => is_erroneous_action rr (post_deserialize raw)) = none →
      ((process_csv_row i (.ok raw) st).2).pending_error_marker =
        some (i, post_deserialize raw)) ∧
    (∀ (xs : List (Except String ActionCsvRow)) (n : Nat) (ts : TaggedState)
      (j0 : Nat), j0 < n → (∀ mr, ts.pending_error_marker ≠ some (j0, mr)) →
      (∀ mr, ((tprocessRows n ts xs).2).pending_error_marker ≠ some (j0, mr)) ∧
      (∀ (p : Nat) (hq : p < ((tprocessRows n ts xs).1).length)
        (pt : ActionPlotPoint) (a : Nat),
        ((tprocessRows n ts xs).1).get ⟨p, hq⟩ ≠ some (.ok (pt, some (a, j0))))) := by
  obtain ⟨hsome, hnone, hpend⟩ := step_reaches_marker i raw st hb hc
  have hch := check_pending_none_of_nofire st.pending_error_marker
    (post_deserialize raw) hnofire
  rcases hcp0 : check_pending_erroneous_action_marker st.pending_error_marker
    (post_deserialize raw) with ⟨o0, pe0⟩
  rw [hcp0] at hch
  simp only at hch
  subst hch
  refine ⟨?_, ?_, ?_⟩
  · intro A hfind
    apply hsome
    unfold process_erroneous_action
    rw [hcp0]
    dsimp only
    simp only [hm, if_true]
    unfold seek_erroneous_action_in_visited_rows
    rw [hfind]
    rfl
  · intro hfind
    rw [hpend]
    unfold process_erroneous_action
    rw [hcp0]
    dsimp only
    simp only [hm, if_true]
    unfold seek_erroneous_action_in_visited_rows
    rw [hfind]
    rfl
  · intro xs n ts j0 hj hstale
    exact trun_stale xs n ts j0 hj hstale

/-- C4 witness: the marker `exRowM` arrives right after the matching
action `exRowA`; the backward search finds the action in the buffer and
the pipeline emits the pairing on the marker's row. -/
theorem C4_backward_search_witness :
    (process_csv_row 1 (.ok exRowM)
        (processRows 0 (CsvProcessingState.new 5) [.ok exRowA]).2).1 =
      some (.ok (.Error (ErroneousAction.new (post_deserialize exRowA)
        (post_deserialize exRowM)))) :=
  (C4_backward_search (processRows 0 (CsvProcessingState.new 5) [.ok exRowA]).2 1
    exRowM (by decide) (Or.inl (by decide)) (by decide)
    (fun j mr h => by
      rw [show ((processRows 0 (CsvProcessingState.new 5)
        [.ok exRowA]).2).pending_error_marker = none from by decide] at h
      exact Option.noConfusion h)).1
    (post_deserialize exRowA) (by decide)

/-- C4 counterexample: a row that is both an error marker and a CPR end
marker is consumed by the CPR merge, so although it is an error marker,
no pending match fired and no buffered row qualifies, the marker is NOT
stored in the pending cell (which the claim's unconditional "whenever"
requires). -/
theorem C4_counterexample :
    is_error_action_marker (post_deserialize exMarkerCprEnd) = true ∧
    seek_erroneous_action_in_visited_rows
      [post_deserialize exCprBegin, post_deserialize exMarkerCprEnd]
      (post_deserialize exMarkerCprEnd) = none ∧
    (processRows 0 (CsvProcessingState.new 5)
      [.ok exCprBegin, .ok exMarkerCprEnd]).1 =
      [none, some (.ok (.Period .CPR
        (some (PlotLocation.new (post_deserialize exCprBegin)))
        (some (PlotLocation.new (post_deserialize exMarkerCprEnd)))))] ∧
    ((processRows 0 (CsvProcessingState.new 5)
      [.ok exCprBegin, .ok exMarkerCprEnd]).2).pending_error_marker = none := by
  refine ⟨by decide, by decide, by decide, by decide⟩

/-- C5 (amended): while a marker is pending, each subsequent row that
reaches the marker-correlation stage (not consumed by the
stage-boundary handler or a CPR merge) is tested as the candidate
action before any other marker classification: on a match the pending
cell is cleared and one ErroneousAction keyed to the current row is
emitted; if instead the pair fails the 2-second can-mark-each-other
test, the marker leaves the pending cell (the cell afterwards holds
nothing, or a freshly stored marker from the current row) and the
dropped marker occurrence is never paired with any later row of the
stream. -/
theorem C5_forward_pending (st : CsvProcessingState) (i j : Nat)
    (raw m : ActionCsvRow)
    (hpend : st.pending_error_marker = some (j, m))
    (hb : is_stage_boundary (post_deserialize raw) = false)
    (hc : check_cpr (post_deserialize raw) = none ∨ st.cpr_points = []) :
    (is_erroneous_action (post_deserialize raw) m = true →
      (process_csv_row i (.ok raw) st).1 =
        some (.ok (.Error (ErroneousAction.new (post_deserialize raw) m))) ∧
      ((process_csv_row i (.ok raw) st).2).pending_error_marker = none) ∧
    (is_erroneous_action (post_deserialize raw) m = false →
      can_mark_each_other (post_deserialize raw) m = false →
      (((process_csv_row i (.ok raw) st).2).pending_error_marker = none ∨
       ((process_csv_row i (.ok raw) st).2).pending_error_marker =
         some (i, post_deserialize raw))) ∧
    (∀ (xs : List (Except String ActionCsvRow)) (n : Nat) (ts : TaggedState)
      (j0 : Nat), j0 < n → (∀ mr, ts.pending_error_marker ≠ some (j0, mr)) →
      (∀ mr, ((tprocessRows n ts xs).2).pending_error_marker ≠ some (j0, mr)) ∧
      (∀ (p : Nat) (hq : p < ((tprocessRows n ts xs).1).length)
        (pt : ActionPlotPoint) (a : Nat),
        ((tprocessRows n ts xs).1).get ⟨p, hq⟩ ≠ some (.ok (pt, some (a, j0))))) := by
  obtain ⟨hsome, hnone, hpendstep⟩ := step_reaches_marker i raw st hb hc
  refine ⟨?_, ?_, ?_⟩
  · intro hmatch
    have her : process_erroneous_action st.pending_error_marker
        (update_recent_rows (post_deserialize raw) st.recent_rows
          st.max_rows_to_check) i (post_deserialize raw) =
        (some (.ok (.Error (ErroneousAction.new (post_deserialize raw) m))), none) := by
      unfold process_erroneous_action check_pending_erroneous_action_marker
      rw [hpend]
      simp only [hmatch, if_true]
    exact ⟨hsome _ (by rw [her]), by rw [hpendstep, her]⟩
  · intro hmatch hfar
    have hch : check_pending_erroneous_action_marker st.pending_error_marker
        (post_deserialize raw) = (none, none) := by
      unfold check_pending_erroneous_action_marker
      rw [hpend]
      simp only [hmatch, Bool.false_eq_true, if_false, hfar, not_false_eq_true,
        if_true]
    rw [hpendstep]
    unfold process_erroneous_action
    rw [hch]
    dsimp only
    by_cases hm : is_error_action_marker (post_deserialize raw) = true
    · simp only [hm, if_true]
      rcases hs : seek_erroneous_action_in_visited_rows
        (update_recent_rows (post_deserialize raw) st.recent_rows
          st.max_rows_to_check) (post_deserialize raw) with _ | res
      · exact Or.inr rfl
      · exact Or.inl rfl
    · simp only [eq_false_of_ne_true hm, Bool.false_eq_true, if_false]
      by_cases hmiss : is_missed_action (post_deserialize raw) = true
      · simp only [hmiss, if_true]
        exact Or.inl trivial
      · simp only [eq_false_of_ne_true hmiss, Bool.false_eq_true, if_false]
        exact Or.inl trivial
  · intro xs n ts j0 hj hstale
    exact trun_stale xs n ts j0 hj hstale

/-- C5 witness: with the marker `exM100` pending from row 0, the action
row `exA101` is matched by the forward test, one ErroneousAction is
emitted on the current row, and the pending cell is cleared. -/
theorem C5_forward_pending_witness :
    is_erroneous_action (post_deserialize exA101) (post_deserialize exM100) = true ∧
    ((process_csv_row 1 (.ok exA101)
        (processRows 0 (CsvProcessingState.new 5) [.ok exM100]).2).1 =
      some (.ok (.Error (ErroneousAction.new (post_deserialize exA101)
        (post_deserialize exM100)))) ∧
     ((process_csv_row 1 (.ok exA101)
        (processRows 0 (CsvProcessingState.new 5) [.ok exM100]).2).2).pending_error_marker =
       none) :=
  ⟨by decide,
   (C5_forward_pending (processRows 0 (CsvProcessingState.new 5) [.ok exM100]).2 1 0
     exA101 (post_deserialize exM100) (by decide) (by decide)
     (Or.inl (by decide))).1 (by decide)⟩

/-- C5 counterexample: with the marker `exM100` pending, the
stage-boundary row `exStageFar` (100 seconds later) is consumed by the
stage handler without being tested against the pending marker, so the
marker is neither matched nor dropped, and a later out-of-order row is
still paired with it -- contradicting "each subsequent row is tested
... the pending marker is dropped and never paired with any later
row". -/
theorem C5_counterexample :
    ((processRows 0 (CsvProcessingState.new 5) [.ok exM100]).2).pending_error_marker =
      some (0, post_deserialize exM100) ∧
    can_mark_each_other (post_deserialize exStageFar) (post_deserialize exM100) =
      false ∧
    ((processRows 0 (CsvProcessingState.new 5)
      [.ok exM100, .ok exStageFar]).2).pending_error_marker =
      some (0, post_deserialize exM100) ∧
    (processRows 0 (CsvProcessingState.new 5)
      [.ok exM100, .ok exStageFar, .ok exA101]).1 =
      [none,
       some (.ok (.Period .Stage
         (some { timestamp := CsvRowTime.default, stage := (2, "Stage B") })
         (some (PlotLocation.new (post_deserialize exStageFar))))),
       some (.ok (.Error (ErroneousAction.new (post_deserialize exA101)
         (post_deserialize exM100))))] := by
  refine ⟨by decide, by decide, by decide, by decide⟩

/-- C2 (amended): the tagged instrumentation erases to the engine
(`process_csv_row` run) exactly; for every pair of row occurrences
(action row index a, error-marker row index mi) at most one
ErroneousAction pairing is emitted over the whole run; and every
emitted pairing is built from the parsed rows at its two indices
(matching per the erroneous-action predicate, the marker being an
error-marker row) and is keyed to whichever of the two rows is
classified second in file order (position max a mi). -/
theorem C2_pairing (N : Nat) (xs : List (Except String ActionCsvRow)) :
    ((trun N xs).1.map eraseOut = (processRows 0 (CsvProcessingState.new N) xs).1) ∧
    (∀ (p1 p2 : Nat) (hq1 : p1 < ((trun N xs).1).length)
      (hq2 : p2 < ((trun N xs).1).length) (pt1 pt2 : ActionPlotPoint) (a mi : Nat),
      ((trun N xs).1).get ⟨p1, hq1⟩ = some (.ok (pt1, some (a, mi))) →
      ((trun N xs).1).get ⟨p2, hq2⟩ = some (.ok (pt2, some (a, mi))) → p1 = p2) ∧
    (∀ (p : Nat) (hq : p < ((trun N xs).1).length) (pt : ActionPlotPoint)
      (a mi : Nat),
      ((trun N xs).1).get ⟨p, hq⟩ = some (.ok (pt, some (a, mi))) →
      p = max a mi ∧
      ∃ A M, rowAt xs a = some A ∧ rowAt xs mi = some M ∧
        pt = .Error (ErroneousAction.new A M) ∧ is_erroneous_action A M = true ∧
        is_error_action_marker M = true) := by
  have hinv0 : TInv 0 (TaggedState.new N) :=
    ⟨fun q hq => absurd hq (List.not_mem_nil q), fun j m h => Option.noConfusion h⟩
  have halign : TAligned xs (TaggedState.new N) :=
    ⟨fun q hq => absurd hq (List.not_mem_nil q), fun j m h => Option.noConfusion h⟩
  have hidx : ∀ (p : Nat) (hp : p < xs.length),
      xs.get? (0 + p) = some (xs.get ⟨p, hp⟩) := by
    intro p hp
    rw [Nat.zero_add]
    exact List.get?_eq_get hp
  refine ⟨(tprocessRows_erase xs 0 (TaggedState.new N)).1, ?_, ?_⟩
  · intro p1 p2 hq1 hq2 pt1 pt2 a mi h1 h2
    exact trun_tag_unique xs 0 (TaggedState.new N) hinv0 p1 p2 hq1 hq2 pt1 pt2 a mi
      h1 h2
  · intro p hq pt a mi h
    have hsh := trun_tag_shape xs 0 (TaggedState.new N) hinv0 p hq pt a mi h
    refine ⟨by omega, ?_⟩
    exact (trun_content xs xs 0 (TaggedState.new N) hidx halign).2 p hq pt a mi h

/-- C2 witness: in the run [marker at row 0, matching action at row 1]
the pairing is emitted once, tagged (action 1, marker 0), at position
1 = max 1 0, and is built from the two parsed rows. -/
theorem C2_pairing_witness :
    (1 : Nat) = max 1 0 ∧
    ∃ A M, rowAt [.ok exM100, .ok exA101] 1 = some A ∧
      rowAt [.ok exM100, .ok exA101] 0 = some M ∧
      ActionPlotPoint.Error (ErroneousAction.new (post_deserialize exA101)
        (post_deserialize exM100)) = .Error (ErroneousAction.new A M) ∧
      is_erroneous_action A M = true ∧ is_error_action_marker M = true :=
  (C2_pairing 5 [.ok exM100, .ok exA101]).2.2 1 (by decide)
    (.Error (ErroneousAction.new (post_deserialize exA101)
      (post_deserialize exM100))) 1 0 (by decide)

/-- C2 counterexample: `exRowA` (action point) and `exRowM` (error
marker) match on username/vital-name with equal timestamps, but with
lookback window 1 the action is already evicted when the marker
arrives and the run ends with the marker still pending, so no
ErroneousAction pairing is emitted at all -- not "exactly one". -/
theorem C2_counterexample :
    (post_deserialize exRowA).action_point = true ∧
    is_error_action_marker (post_deserialize exRowM) = true ∧
    (post_deserialize exRowM).username = (post_deserialize exRowA).action_vital_name ∧
    can_mark_each_other (post_deserialize exRowA) (post_deserialize exRowM) = true ∧
    ((processRows 0 (CsvProcessingState.new 1) [.ok exRowA, .ok exRowM]).1).all
      (fun o => match o with
        | some (.ok (.Error _)) => false
        | _ => true) = true := by
  refine ⟨by decide, by decide, by decide, by decide, by decide⟩

end MTeam
